import Mathlib

/-!
Verification of the quote-dashboard serverless handlers.

The repository holds three HTTP handlers, each a "fetch quotes for a
fixed registry of symbols, aggregate partial failures" pipeline:

* `src/unnamed/part_000` (economic indicators, Finnhub): registry
  `INDICATORS`, fetcher `fetchIndicator` with timeout/retry/backoff,
  handler with grouping of successes by `type`.
* `src/unnamed/part_001` (sector stocks, Finnhub): registry `COMPANIES`
  (18 tickers with sectors), fetcher `fetchStockPrice` with
  timeout/retry/backoff, handler without grouping.
* `src/api/stocks.js` (stocks, API Ninjas): registry `COMPANIES`
  (5 tickers), fetcher `fetchStockPrice` with a single attempt, no
  timeout signal and no retry, handler without grouping.

The embedding models:
* JavaScript numbers as exact rationals extended with the IEEE
  non-finite values (`JSNum`), since the claims concern division by a
  zero `previousClose`, not floating-point rounding;
* the upstream HTTP service as a per-attempt oracle (`Outcome`):
  each attempt either rejects (timeout / network error) or yields a
  response with a status, a body text and a JSON parse result;
* the retry loops of the two Finnhub fetchers by one generic
  structurally recursive function `fetchFrom` over the oracle, which
  also records a trace of outbound requests and delays (`FetchEvent`);
* `Promise.all` by an explicit event-loop model (`promiseAllFun`)
  where completions arrive in an arbitrary order and each completion
  writes its own index-aligned slot;
* each handler as a pure function of the request method, the
  environment, the oracle and a fault-injection input standing for an
  unexpected exception inside the outer `try`, returning the response
  (headers, status, body) together with the list of outbound fetch
  events it caused.
-/

/-- JavaScript number model: exact rationals plus the IEEE non-finite
values. Overflow to infinity and signed zero are not modelled (the
payload values the claims exercise are small, and a `-0` can only make
a division result `-Infinity` instead of `Infinity`, both non-finite). -/
inductive JSNum where
  | fin (q : ℚ)
  | posInf
  | negInf
  | nan
deriving DecidableEq

namespace JSNum

/-- Whether the value is an ordinary (finite) number. -/
def isFinite : JSNum → Bool
  | fin _ => true
  | _ => false

/-- JavaScript subtraction `a - b` on the extended numbers. -/
def sub : JSNum → JSNum → JSNum
  | nan, _ => nan
  | _, nan => nan
  | fin a, fin b => fin (a - b)
  | fin _, posInf => negInf
  | fin _, negInf => posInf
  | posInf, fin _ => posInf
  | posInf, posInf => nan
  | posInf, negInf => posInf
  | negInf, fin _ => negInf
  | negInf, posInf => negInf
  | negInf, negInf => nan

/-- JavaScript division `a / b` on the extended numbers (single zero:
`x / 0` follows the sign of `x`, `0 / 0 = NaN`). -/
def div : JSNum → JSNum → JSNum
  | nan, _ => nan
  | _, nan => nan
  | fin a, fin b =>
      if b = 0 then (if a = 0 then nan else if 0 < a then posInf else negInf)
      else fin (a / b)
  | fin _, posInf => fin 0
  | fin _, negInf => fin 0
  | posInf, fin b => if b < 0 then negInf else posInf
  | negInf, fin b => if b < 0 then posInf else negInf
  | posInf, posInf => nan
  | posInf, negInf => nan
  | negInf, posInf => nan
  | negInf, negInf => nan

/-- JavaScript multiplication `a * b` on the extended numbers. -/
def mul : JSNum → JSNum → JSNum
  | nan, _ => nan
  | _, nan => nan
  | fin a, fin b => fin (a * b)
  | fin a, posInf => if a = 0 then nan else if 0 < a then posInf else negInf
  | fin a, negInf => if a = 0 then nan else if 0 < a then negInf else posInf
  | posInf, fin b => if b = 0 then nan else if 0 < b then posInf else negInf
  | negInf, fin b => if b = 0 then nan else if 0 < b then negInf else posInf
  | posInf, posInf => posInf
  | posInf, negInf => negInf
  | negInf, posInf => negInf
  | negInf, negInf => posInf

end JSNum

/-- Finnhub quote payload, the JSON fields the source reads:
`{ c: current, pc: previousClose, h: high, l: low, t: time }`
(the source never reads `o`, so it is not modelled). -/
structure Payload where
  c : JSNum
  pc : JSNum
  h : JSNum
  l : JSNum
  t : JSNum
deriving DecidableEq

/-- Upstream behaviour of one outbound request: either the `fetch`
promise rejects (timeout via `AbortSignal.timeout(5000)`, network
error), or a response arrives with an HTTP status, a body text (what
`response.text()` would yield) and the result of `response.json()`. -/
inductive Outcome (P : Type) where
  | fetchError (msg : String)
  | response (status : ℕ) (body : String) (json : Except String P)

/-- Observable event of a fetcher run: an outbound request (tagged with
the attempt number and the timeout bound it was issued with, `none`
when the source passes no `AbortSignal`), a rate-limit delay, or an
exponential-backoff delay. Delay amounts are in milliseconds. -/
inductive FetchEvent where
  | request (attempt : ℕ) (timeoutMs : Option ℕ)
  | rateLimitDelay (ms : ℕ)
  | backoffDelay (ms : ℕ)
deriving DecidableEq

/-- Result of a retrying fetcher call: the resolved quote object, the
error it throws, or JavaScript `undefined` (the value the `async`
function resolves with when the `for` loop body never runs). -/
inductive FetchResult (Q : Type) where
  | success (q : Q)
  | failure (msg : String)
  | jsUndefined
deriving DecidableEq

/-- How one attempt of the retry loop resolves, before the loop decides
between returning, retrying and throwing: the attempt returns a quote,
hits the rate-limit status 429, or fails with an error message. -/
inductive StepRes (Q : Type) where
  | ok (q : Q)
  | rateLimited (body : String)
  | fail (msg : String)
deriving DecidableEq

/-- Pipeline-specific pieces of the shared Finnhub retry loop: how a
payload becomes a quote object, the thrown messages, the "no data"
sentinel check and the timeout bound each request is issued with. -/
structure FetchConfig (P Q : Type) where
  mkQuote : P → Q
  failMsg : ℕ → String → String
  isNoData : P → Bool
  noDataMsg : String
  timeoutMs : Option ℕ

/-- Resolution of attempt number `attempt` against the oracle `beh`,
following the attempt body of `fetchIndicator` (part_000 lines 41-79)
and `fetchStockPrice` (part_001 lines 56-96): a rejected `fetch`
promise is a failure; a non-ok response with status 429 is the
rate-limit case; any other non-ok response throws the "API request
failed" message; on an ok response, a `response.json()` rejection is a
failure, the zero sentinel (`data.c === 0 && data.t === 0`) throws the
"no data" message, and otherwise the quote object is built. -/
def stepOf (cfg : FetchConfig P Q) (beh : ℕ → Outcome P) (attempt : ℕ) : StepRes Q :=
  match beh attempt with
  | .fetchError msg => .fail msg
  | .response status body json =>
    if 200 ≤ status ∧ status ≤ 299 then
      match json with
      | .error jmsg => .fail jmsg
      | .ok p => if cfg.isNoData p then .fail cfg.noDataMsg else .ok (cfg.mkQuote p)
    else if status = 429 then .rateLimited body
    else .fail (cfg.failMsg status body)

/-- The retry loop from the current attempt on, with `rem` further
attempts allowed after this one (`rem = retries - attempt`, so the
loop guard `attempt <= retries` holds and `attempt === retries` is
`rem = 0`). On success the quote is returned; on a 429 with attempts
remaining the loop waits `1000 * (attempt + 1)` ms and retries
(part_000 line 52, part_001 line 68) without the backoff delay; on a
429 at the last attempt the "API request failed" error is thrown and
rethrown by the catch; on any other failure the catch rethrows at the
last attempt and otherwise waits `500 * 2 ^ attempt` ms and retries
(part_000 line 85, part_001 line 102). Every iteration issues exactly
one outbound request, recorded in the trace. -/
def fetchFrom (cfg : FetchConfig P Q) (beh : ℕ → Outcome P) :
    ℕ → ℕ → FetchResult Q × List FetchEvent
  | attempt, 0 =>
    (match stepOf cfg beh attempt with
     | .ok q => .success q
     | .rateLimited body => .failure (cfg.failMsg 429 body)
     | .fail msg => .failure msg,
     [.request attempt cfg.timeoutMs])
  | attempt, rem + 1 =>
    match stepOf cfg beh attempt with
    | .ok q => (.success q, [.request attempt cfg.timeoutMs])
    | .rateLimited _ =>
      let r := fetchFrom cfg beh (attempt + 1) rem
      (r.1, .request attempt cfg.timeoutMs :: .rateLimitDelay (1000 * (attempt + 1)) :: r.2)
    | .fail _ =>
      let r := fetchFrom cfg beh (attempt + 1) rem
      (r.1, .request attempt cfg.timeoutMs :: .backoffDelay (500 * 2 ^ attempt) :: r.2)

/-- Whole fetcher call, `retries` as the JavaScript argument: the loop
`for (let attempt = 0; attempt <= retries; attempt++)` runs its body
at least once exactly when `0 <= retries`; with a negative `retries`
the loop body never runs and the `async` function resolves with
`undefined`. -/
def fetchWithRetry (cfg : FetchConfig P Q) (beh : ℕ → Outcome P) (retries : ℤ) :
    FetchResult Q × List FetchEvent :=
  if 0 ≤ retries then fetchFrom cfg beh 0 retries.toNat else (.jsUndefined, [])

/-- Attempt numbers of the outbound requests in a trace. -/
def requestAttempts (tr : List FetchEvent) : List ℕ :=
  tr.filterMap fun e =>
    match e with
    | .request a _ => some a
    | _ => none

/-- Whether the attempt resolves with a quote. -/
def stepOk (cfg : FetchConfig P Q) (beh : ℕ → Outcome P) (i : ℕ) : Bool :=
  match stepOf cfg beh i with
  | .ok _ => true
  | _ => false

/-- Whether the attempt fails (throws inside the try), as opposed to
succeeding or hitting the rate-limit `continue`. -/
def stepFails (cfg : FetchConfig P Q) (beh : ℕ → Outcome P) (i : ℕ) : Bool :=
  match stepOf cfg beh i with
  | .fail _ => true
  | _ => false

/-- Whether the attempt hits the rate-limit status 429. -/
def stepRate (cfg : FetchConfig P Q) (beh : ℕ → Outcome P) (i : ℕ) : Bool :=
  match stepOf cfg beh i with
  | .rateLimited _ => true
  | _ => false

/-- Whether the error strings an upstream behaviour can inject (the
rejection reason of `fetch`, the rejection reason of `response.json()`)
are non-empty, as the messages of real runtime `Error` objects are. -/
def outcomeMsgNonempty {P : Type} : Outcome P → Bool
  | .fetchError m => !(m == "")
  | .response _ _ (.error j) => !(j == "")
  | .response _ _ (.ok _) => true

/-- The error message attempt `i` would surface if it is the final
attempt: the message of its failure, or for a final-attempt 429 the
"API request failed" message built from status 429 and the body. For a
successful attempt the value is irrelevant (no error is thrown). -/
def stepErrOf (cfg : FetchConfig P Q) (beh : ℕ → Outcome P) (i : ℕ) : String :=
  match stepOf cfg beh i with
  | .ok _ => ""
  | .rateLimited body => cfg.failMsg 429 body
  | .fail msg => msg

/-- Two events standing next to each other in a trace, in this order. -/
def Adjacent (x y : FetchEvent) (tr : List FetchEvent) : Prop :=
  ∃ pre post, tr = pre ++ x :: y :: post

/-- Three events standing next to each other in a trace, in this order. -/
def Adjacent3 (x y z : FetchEvent) (tr : List FetchEvent) : Prop :=
  ∃ pre post, tr = pre ++ x :: y :: z :: post

/-- The three CORS headers every handler sets unconditionally before
any branch on method or outcome (first statements of each handler). -/
def corsHeaders : List (String × String) :=
  [("Access-Control-Allow-Origin", "*"),
   ("Access-Control-Allow-Methods", "GET, OPTIONS"),
   ("Access-Control-Allow-Headers", "Content-Type")]

/-- An HTTP response as assembled by a handler. -/
structure Response (B : Type) where
  headers : List (String × String)
  status : ℕ
  body : B
deriving DecidableEq

/-- Truthiness of `process.env.API_KEY` in `if (!apiKey)`: the
environment variable is missing (`undefined`) or set to the empty
string, both falsy in JavaScript. -/
def jsTruthy : Option String → Bool
  | none => false
  | some s => !(s == "")

/-- Event-loop model of `Promise.all`: the pending operations are
index-aligned to the input list, completions arrive in the order given
by `order`, and each completion writes the slot of its own index. The
slot store is a function from index to the value written so far. -/
def promiseAllFun (results : List α) : List ℕ → (ℕ → Option α) → (ℕ → Option α)
  | [], slots => slots
  | i :: rest, slots =>
      promiseAllFun results rest (fun j => if j = i then results.get? i else slots j)

/-- The array `Promise.all` resolves with, read out slot by slot in
index order after all completions in `order` have been processed. -/
def promiseAll (results : List α) (order : List ℕ) : List (Option α) :=
  (List.range results.length).map (promiseAllFun results order (fun _ => none))

namespace Economic

/-- Descriptor metadata of one indicator in the `INDICATORS` registry
of part_000: display name, category tag and free-text description. -/
structure IndicatorInfo where
  name : String
  type : String
  description : String
deriving DecidableEq

/-- The static `INDICATORS` registry (part_000 lines 12-28), in its
declaration order. -/
def INDICATORS : List (String × IndicatorInfo) :=
  [("^GSPC", ⟨"S&P 500", "Index", "US Large Cap Index"⟩),
   ("^DJI", ⟨"Dow Jones Industrial Average", "Index", "US Blue Chip Index"⟩),
   ("^IXIC", ⟨"NASDAQ Composite", "Index", "US Tech-Heavy Index"⟩),
   ("^RUT", ⟨"Russell 2000", "Index", "US Small Cap Index"⟩),
   ("^VIX", ⟨"CBOE Volatility Index", "Volatility", "Market Fear Gauge"⟩),
   ("^TNX", ⟨"US 10-Year Treasury Yield", "Bonds", "10-Year Bond Yield"⟩),
   ("GC=F", ⟨"Gold Futures", "Commodities", "Gold Price"⟩),
   ("CL=F", ⟨"Crude Oil WTI", "Commodities", "Oil Price"⟩)]

/-- Success-variant quote object of `fetchIndicator`
(part_000 lines 67-79). -/
structure IndicatorQuote where
  symbol : String
  name : String
  type : String
  description : String
  value : JSNum
  previousClose : JSNum
  change : JSNum
  changePercent : JSNum
  high : JSNum
  low : JSNum
  timestamp : String
deriving DecidableEq

/-- The quote object built on a successful attempt, with the derived
fields `change = c - pc` and `changePercent = ((c - pc) / pc) * 100`
computed by unguarded JavaScript arithmetic (part_000 lines 74-75). -/
def mkIndicatorQuote (symbol : String) (info : IndicatorInfo) (now : String)
    (p : Payload) : IndicatorQuote :=
  { symbol := symbol
    name := info.name
    type := info.type
    description := info.description
    value := p.c
    previousClose := p.pc
    change := p.c.sub p.pc
    changePercent := ((p.c.sub p.pc).div p.pc).mul (.fin 100)
    high := p.h
    low := p.l
    timestamp := now }

/-- Retry-loop configuration of `fetchIndicator`: the thrown messages
of part_000 lines 56 and 63, the zero sentinel of line 62, and the
5000 ms `AbortSignal.timeout` of line 46. The source looks the
descriptor up in `INDICATORS` (line 66); the model receives the same
descriptor from the caller, which only ever passes registry entries. -/
def indicatorCfg (symbol : String) (info : IndicatorInfo) (now : String) :
    FetchConfig Payload IndicatorQuote :=
  { mkQuote := mkIndicatorQuote symbol info now
    failMsg := fun status body =>
      "API request failed for " ++ symbol ++ ": " ++ toString status ++ " - " ++ body
    isNoData := fun p => p.c == .fin 0 && p.t == .fin 0
    noDataMsg := "No data available for " ++ symbol
    timeoutMs := some 5000 }

/-- The `fetchIndicator` routine of part_000 lines 37-88. -/
def fetchIndicator (symbol : String) (info : IndicatorInfo) (now : String)
    (beh : ℕ → Outcome Payload) (retries : ℤ) : FetchResult IndicatorQuote × List FetchEvent :=
  fetchWithRetry (indicatorCfg symbol info now) beh retries

/-- One slot of the aggregated array: the resolved quote, the
error object the handler's per-symbol `.catch` substitutes
(part_000 lines 137-145), or JavaScript `undefined` (only possible
with a negative retry count, which the handler never passes). -/
inductive IndicatorEntry where
  | ok (q : IndicatorQuote)
  | err (symbol name type description error timestamp : String)
  | undefinedSlot
deriving DecidableEq

/-- The per-symbol promise of the handler's fan-out (part_000 lines
131-147): `fetchIndicator(symbol, apiKey)` with the default retry
count 2, with a rejection converted into the error object carrying the
symbol's descriptor metadata and the cycle timestamp. -/
def settleIndicator (symbol : String) (info : IndicatorInfo) (now : String)
    (beh : ℕ → Outcome Payload) : IndicatorEntry :=
  match (fetchIndicator symbol info now beh 2).1 with
  | .success q => .ok q
  | .failure e => .err symbol info.name info.type info.description e now
  | .jsUndefined => .undefinedSlot

/-- The array `Promise.all` resolves with (part_000 line 150),
index-aligned to the registry: one entry per registry symbol, in
registry declaration order. -/
def indicatorEntries (registry : List (String × IndicatorInfo)) (now : String)
    (behs : String → ℕ → Outcome Payload) : List IndicatorEntry :=
  registry.map fun si => settleIndicator si.1 si.2 now (behs si.1)

/-- All outbound fetch events of the fan-out, tagged by symbol. -/
def indicatorOutbound (registry : List (String × IndicatorInfo)) (now : String)
    (behs : String → ℕ → Outcome Payload) : List (String × FetchEvent) :=
  registry.flatMap fun si =>
    ((fetchIndicator si.1 si.2 now (behs si.1) 2).2).map fun ev => (si.1, ev)

/-- Truthiness of `indicator.error` (part_000 lines 153 and 165): a
resolved quote has no `error` field (`undefined`, falsy); an error
object carries the message, truthy exactly when non-empty. The
`jsUndef` arm is unreachable for the handler (retry count 2). -/
def IndicatorEntry.hasError : IndicatorEntry → Bool
  | .ok _ => false
  | .err _ _ _ _ e _ => !(e == "")
  | .undefinedSlot => true

/-- Whether the entry is a resolved (Success-variant) quote. -/
def IndicatorEntry.isOk : IndicatorEntry → Bool
  | .ok _ => true
  | _ => false

/-- The `type` field the grouping reads (`indicator.type`, part_000
line 166): both entry variants carry it; `jsUndef` is unreachable. -/
def IndicatorEntry.typeOf : IndicatorEntry → String
  | .ok q => q.type
  | .err _ _ t _ _ _ => t
  | .undefinedSlot => ""

/-- One step of the grouping accumulator (`acc[indicator.type]`,
part_000 lines 166-169): push onto the existing group, or append a new
singleton group (JavaScript object key insertion order). -/
def insertGrouped (g : List (String × List IndicatorEntry)) (c : String)
    (e : IndicatorEntry) : List (String × List IndicatorEntry) :=
  match g with
  | [] => [(c, [e])]
  | (k, l) :: rest =>
    if k == c then (k, l ++ [e]) :: rest else (k, l) :: insertGrouped rest c e

/-- The `groupedData` reduce of part_000 lines 164-172: entries with a
truthy `error` field are skipped, the rest are pushed onto the group
of their `type`. -/
def groupedOf (data : List IndicatorEntry) : List (String × List IndicatorEntry) :=
  data.foldl (fun acc e => if e.hasError then acc else insertGrouped acc e.typeOf e) []

/-- Reading `grouped[c]`: the group stored under key `c`, the empty
list when the key is absent. -/
def groupLookup (g : List (String × List IndicatorEntry)) (c : String) :
    List IndicatorEntry :=
  match g.find? (fun p => p.1 == c) with
  | some p => p.2
  | none => []

/-- Response bodies the economic handler can produce: `res.end()` with
no body for OPTIONS, and the JSON shapes of part_000 lines 107-110,
119-122, 156-160, 177-182 and 187-191. The `success` constructor
stands for the body with `success: true`. -/
inductive EconomicBody where
  | empty
  | methodNotAllowed (error message : String)
  | configError (error message : String)
  | serviceUnavailable (error message : String) (data : List IndicatorEntry)
  | success (timestamp : String) (data : List IndicatorEntry)
      (grouped : List (String × List IndicatorEntry))
  | internalError (error message : String) (details : Option String)
deriving DecidableEq

/-- Status, body and outbound calls of the economic handler (part_000
lines 94-193), after the unconditional CORS headers: the OPTIONS and
non-GET branches, the credential check that short-circuits before any
fan-out, the outer catch (modelled by the fault-injection input
`fault`, standing for an unexpected exception inside the `try`; its
placement before the fan-out only affects the outbound trace of that
branch), and the all-failed / success response policy. -/
def handlerCore (method : String) (apiKey : Option String) (nodeEnv : String)
    (now : String) (behs : String → ℕ → Outcome Payload) (fault : Option String) :
    ℕ × EconomicBody × List (String × FetchEvent) :=
  if method == "OPTIONS" then (200, .empty, [])
  else if method != "GET" then
    (405, .methodNotAllowed "Method not allowed" "Only GET requests are supported", [])
  else if !(jsTruthy apiKey) then
    (500, .configError "Configuration error"
      "API key not configured. Please set API_KEY environment variable.", [])
  else
    match fault with
    | some e =>
      (500, .internalError "Internal server error"
        "An unexpected error occurred while fetching economic data"
        (if nodeEnv == "development" then some e else none), [])
    | none =>
      let data := indicatorEntries INDICATORS now behs
      let outbound := indicatorOutbound INDICATORS now behs
      if data.all (fun e => e.hasError) then
        (503, .serviceUnavailable "Service unavailable"
          "Unable to fetch economic indicator data from API" data, outbound)
      else
        (200, .success now data (groupedOf data), outbound)

/-- The entry stored for a registry key is keyed by that symbol and
carries that symbol's descriptor metadata, in both variants; the
`undefined` value never occurs. -/
def matchesDescriptorE (key : String) (info : IndicatorInfo) : IndicatorEntry → Prop
  | .ok q => q.symbol = key ∧ q.name = info.name ∧ q.type = info.type ∧
      q.description = info.description
  | .err s n t d _ _ => s = key ∧ n = info.name ∧ t = info.type ∧ d = info.description
  | .undefinedSlot => False

/-- The economic handler: the three CORS headers are set before any
branch (part_000 lines 96-98), so they are attached outside the
branching core. -/
def handler (method : String) (apiKey : Option String) (nodeEnv : String)
    (now : String) (behs : String → ℕ → Outcome Payload) (fault : Option String) :
    Response EconomicBody × List (String × FetchEvent) :=
  ({ headers := corsHeaders
     status := (handlerCore method apiKey nodeEnv now behs fault).1
     body := (handlerCore method apiKey nodeEnv now behs fault).2.1 },
   (handlerCore method apiKey nodeEnv now behs fault).2.2)

end Economic

namespace Stocks

/-- Descriptor metadata of one company in the `COMPANIES` registry of
part_001: display name and sector tag. -/
structure CompanyInfo where
  name : String
  sector : String
deriving DecidableEq

/-- The static `COMPANIES` registry (part_001 lines 12-42), in its
declaration order. -/
def COMPANIES : List (String × CompanyInfo) :=
  [("AAPL", ⟨"Apple Inc.", "Technology"⟩),
   ("MSFT", ⟨"Microsoft Corporation", "Technology"⟩),
   ("GOOGL", ⟨"Alphabet Inc.", "Technology"⟩),
   ("META", ⟨"Meta Platforms Inc.", "Technology"⟩),
   ("NVDA", ⟨"NVIDIA Corporation", "Technology"⟩),
   ("JNJ", ⟨"Johnson & Johnson", "Healthcare"⟩),
   ("UNH", ⟨"UnitedHealth Group", "Healthcare"⟩),
   ("PFE", ⟨"Pfizer Inc.", "Healthcare"⟩),
   ("JPM", ⟨"JPMorgan Chase & Co.", "Finance"⟩),
   ("BAC", ⟨"Bank of America Corp.", "Finance"⟩),
   ("GS", ⟨"Goldman Sachs Group", "Finance"⟩),
   ("XOM", ⟨"Exxon Mobil Corporation", "Energy"⟩),
   ("CVX", ⟨"Chevron Corporation", "Energy"⟩),
   ("AMZN", ⟨"Amazon.com Inc.", "Consumer"⟩),
   ("WMT", ⟨"Walmart Inc.", "Consumer"⟩),
   ("COST", ⟨"Costco Wholesale", "Consumer"⟩),
   ("BA", ⟨"Boeing Company", "Industrial"⟩),
   ("CAT", ⟨"Caterpillar Inc.", "Industrial"⟩)]

/-- Success-variant quote object of `fetchStockPrice`
(part_001 lines 85-96). -/
structure StockQuote where
  ticker : String
  companyName : String
  sector : String
  price : JSNum
  previousClose : JSNum
  change : JSNum
  changePercent : JSNum
  high : JSNum
  low : JSNum
  timestamp : String
deriving DecidableEq

/-- The quote object built on a successful attempt, with the derived
fields `change = c - pc` and `changePercent = ((c - pc) / pc) * 100`
computed by unguarded JavaScript arithmetic (part_001 lines 91-92). -/
def mkStockQuote (ticker : String) (info : CompanyInfo) (now : String)
    (p : Payload) : StockQuote :=
  { ticker := ticker
    companyName := info.name
    sector := info.sector
    price := p.c
    previousClose := p.pc
    change := p.c.sub p.pc
    changePercent := ((p.c.sub p.pc).div p.pc).mul (.fin 100)
    high := p.h
    low := p.l
    timestamp := now }

/-- Retry-loop configuration of part_001's `fetchStockPrice`: the
thrown messages of lines 73 and 81, the zero sentinel of line 80, and
the 5000 ms `AbortSignal.timeout` of line 61. Lines 65-71 nest the
`attempt < retries` test inside the 429 test where part_000 conjoins
them, with identical control flow, so both fetchers share `fetchFrom`.
The source looks the descriptor up in `COMPANIES` (line 84); the model
receives the same descriptor from the caller. -/
def stockCfg (ticker : String) (info : CompanyInfo) (now : String) :
    FetchConfig Payload StockQuote :=
  { mkQuote := mkStockQuote ticker info now
    failMsg := fun status body =>
      "API request failed for " ++ ticker ++ ": " ++ toString status ++ " - " ++ body
    isNoData := fun p => p.c == .fin 0 && p.t == .fin 0
    noDataMsg := "No data available for " ++ ticker ++ " (market may be closed or invalid ticker)"
    timeoutMs := some 5000 }

/-- The `fetchStockPrice` routine of part_001 lines 51-105. -/
def fetchStockPrice (ticker : String) (info : CompanyInfo) (now : String)
    (beh : ℕ → Outcome Payload) (retries : ℤ) : FetchResult StockQuote × List FetchEvent :=
  fetchWithRetry (stockCfg ticker info now) beh retries

/-- One slot of the aggregated array: the resolved quote, the error
object the handler's per-symbol `.catch` substitutes (part_001 lines
150-162), or JavaScript `undefined` (never produced with the default
retry count the handler uses). -/
inductive StockEntry where
  | ok (q : StockQuote)
  | err (ticker companyName sector error timestamp : String)
  | undefinedSlot
deriving DecidableEq

/-- The per-symbol promise of the handler's fan-out (part_001 lines
148-163): `fetchStockPrice(ticker, apiKey)` with the default retry
count 2, a rejection converted into the error object carrying the
ticker's descriptor metadata and the cycle timestamp. -/
def settleStock (ticker : String) (info : CompanyInfo) (now : String)
    (beh : ℕ → Outcome Payload) : StockEntry :=
  match (fetchStockPrice ticker info now beh 2).1 with
  | .success q => .ok q
  | .failure e => .err ticker info.name info.sector e now
  | .jsUndefined => .undefinedSlot

/-- The array `Promise.all` resolves with (part_001 line 166),
index-aligned to the registry. -/
def stockEntries (registry : List (String × CompanyInfo)) (now : String)
    (behs : String → ℕ → Outcome Payload) : List StockEntry :=
  registry.map fun si => settleStock si.1 si.2 now (behs si.1)

/-- All outbound fetch events of the fan-out, tagged by ticker. -/
def stockOutbound (registry : List (String × CompanyInfo)) (now : String)
    (behs : String → ℕ → Outcome Payload) : List (String × FetchEvent) :=
  registry.flatMap fun si =>
    ((fetchStockPrice si.1 si.2 now (behs si.1) 2).2).map fun ev => (si.1, ev)

/-- Truthiness of `stock.error` (part_001 line 169). -/
def StockEntry.hasError : StockEntry → Bool
  | .ok _ => false
  | .err _ _ _ e _ => !(e == "")
  | .undefinedSlot => true

/-- Whether the entry is a resolved (Success-variant) quote. -/
def StockEntry.isOk : StockEntry → Bool
  | .ok _ => true
  | _ => false

/-- Response bodies of the part_001 handler: `res.end()` for OPTIONS
and the JSON shapes of lines 124-127, 136-139, 172-176, 182-186 and
191-195. No grouping in this pipeline. -/
inductive StocksBody where
  | empty
  | methodNotAllowed (error message : String)
  | configError (error message : String)
  | serviceUnavailable (error message : String) (data : List StockEntry)
  | success (timestamp : String) (data : List StockEntry)
  | internalError (error message : String) (details : Option String)
deriving DecidableEq

/-- Status, body and outbound calls of the part_001 handler (lines
111-197), after the unconditional CORS headers; `fault` models an
unexpected exception inside the outer `try`. -/
def handlerCore (method : String) (apiKey : Option String) (nodeEnv : String)
    (now : String) (behs : String → ℕ → Outcome Payload) (fault : Option String) :
    ℕ × StocksBody × List (String × FetchEvent) :=
  if method == "OPTIONS" then (200, .empty, [])
  else if method != "GET" then
    (405, .methodNotAllowed "Method not allowed" "Only GET requests are supported", [])
  else if !(jsTruthy apiKey) then
    (500, .configError "Configuration error"
      "API key not configured. Please set API_KEY environment variable.", [])
  else
    match fault with
    | some e =>
      (500, .internalError "Internal server error"
        "An unexpected error occurred while fetching stock data"
        (if nodeEnv == "development" then some e else none), [])
    | none =>
      let data := stockEntries COMPANIES now behs
      let outbound := stockOutbound COMPANIES now behs
      if data.all (fun e => e.hasError) then
        (503, .serviceUnavailable "Service unavailable"
          "Unable to fetch stock data from API" data, outbound)
      else
        (200, .success now data, outbound)

/-- The entry stored for a registry key is keyed by that ticker and
carries that ticker's descriptor metadata, in both variants; the
`undefined` value never occurs. -/
def matchesDescriptorS (key : String) (info : CompanyInfo) : StockEntry → Prop
  | .ok q => q.ticker = key ∧ q.companyName = info.name ∧ q.sector = info.sector
  | .err t n s _ _ => t = key ∧ n = info.name ∧ s = info.sector
  | .undefinedSlot => False

/-- The part_001 handler: CORS headers set before any branch
(lines 113-115). -/
def handler (method : String) (apiKey : Option String) (nodeEnv : String)
    (now : String) (behs : String → ℕ → Outcome Payload) (fault : Option String) :
    Response StocksBody × List (String × FetchEvent) :=
  ({ headers := corsHeaders
     status := (handlerCore method apiKey nodeEnv now behs fault).1
     body := (handlerCore method apiKey nodeEnv now behs fault).2.1 },
   (handlerCore method apiKey nodeEnv now behs fault).2.2)

end Stocks

namespace StocksJs

/-- API Ninjas stock payload: the only JSON field the source reads is
`price` (src/api/stocks.js line 44). -/
structure NinjaPayload where
  price : JSNum
deriving DecidableEq

/-- The static `COMPANIES` registry (src/api/stocks.js lines 12-18). -/
def COMPANIES : List (String × String) :=
  [("AAPL", "Apple Inc."),
   ("MSFT", "Microsoft Corporation"),
   ("GOOGL", "Alphabet Inc."),
   ("META", "Meta Platforms Inc."),
   ("AMZN", "Amazon.com Inc.")]

/-- Success quote object of the stocks.js fetcher (lines 41-46):
no previous close, no derived change fields. -/
structure JsQuote where
  ticker : String
  companyName : String
  price : JSNum
  timestamp : String
deriving DecidableEq

/-- The `fetchStockPrice` routine of src/api/stocks.js lines 26-47:
one single attempt, `fetch` issued with headers only — no
`AbortSignal`, hence a request event with `timeoutMs = none` — no
retry, no sentinel check; a non-ok response throws a message carrying
only the status (line 36), and the quote is built from `data.price`. -/
def fetchStockPrice (ticker : String) (companyName : String) (now : String)
    (o : Outcome NinjaPayload) : Except String JsQuote × List FetchEvent :=
  match o with
  | .fetchError msg => (.error msg, [.request 0 none])
  | .response status _body json =>
    if 200 ≤ status ∧ status ≤ 299 then
      match json with
      | .error jmsg => (.error jmsg, [.request 0 none])
      | .ok p =>
        (.ok { ticker := ticker, companyName := companyName,
               price := p.price, timestamp := now },
         [.request 0 none])
    else (.error ("API request failed for " ++ ticker ++ ": " ++ toString status),
          [.request 0 none])

/-- One slot of the aggregated array: the resolved quote or the error
object substituted by the per-ticker `.catch` (lines 92-102). -/
inductive JsEntry where
  | ok (q : JsQuote)
  | err (ticker companyName error timestamp : String)
deriving DecidableEq

/-- The per-ticker promise of the fan-out (lines 90-103). -/
def settleJs (ticker : String) (companyName : String) (now : String)
    (o : Outcome NinjaPayload) : JsEntry :=
  match (fetchStockPrice ticker companyName now o).1 with
  | .ok q => .ok q
  | .error e => .err ticker companyName e now

/-- The array `Promise.all` resolves with (line 106), index-aligned to
the registry. -/
def jsEntries (registry : List (String × String)) (now : String)
    (behs : String → Outcome NinjaPayload) : List JsEntry :=
  registry.map fun si => settleJs si.1 si.2 now (behs si.1)

/-- All outbound fetch events of the fan-out, tagged by ticker. -/
def jsOutbound (registry : List (String × String)) (now : String)
    (behs : String → Outcome NinjaPayload) : List (String × FetchEvent) :=
  registry.flatMap fun si =>
    ((fetchStockPrice si.1 si.2 now (behs si.1)).2).map fun ev => (si.1, ev)

/-- Truthiness of `stock.error` (line 109). -/
def JsEntry.hasError : JsEntry → Bool
  | .ok _ => false
  | .err _ _ e _ => !(e == "")

/-- Whether the entry is a resolved (Success-variant) quote. -/
def JsEntry.isOk : JsEntry → Bool
  | .ok _ => true
  | _ => false

/-- Response bodies of the stocks.js handler: `res.end()` for OPTIONS
and the JSON shapes of lines 66-69, 78-81, 112-116, 122-126 and
131-135. -/
inductive JsBody where
  | empty
  | methodNotAllowed (error message : String)
  | configError (error message : String)
  | serviceUnavailable (error message : String) (data : List JsEntry)
  | success (timestamp : String) (data : List JsEntry)
  | internalError (error message : String) (details : Option String)
deriving DecidableEq

/-- Status, body and outbound calls of the stocks.js handler (lines
53-137), after the unconditional CORS headers; `fault` models an
unexpected exception inside the outer `try`. -/
def handlerCore (method : String) (apiKey : Option String) (nodeEnv : String)
    (now : String) (behs : String → Outcome NinjaPayload) (fault : Option String) :
    ℕ × JsBody × List (String × FetchEvent) :=
  if method == "OPTIONS" then (200, .empty, [])
  else if method != "GET" then
    (405, .methodNotAllowed "Method not allowed" "Only GET requests are supported", [])
  else if !(jsTruthy apiKey) then
    (500, .configError "Configuration error"
      "API key not configured. Please set API_KEY environment variable.", [])
  else
    match fault with
    | some e =>
      (500, .internalError "Internal server error"
        "An unexpected error occurred while fetching stock data"
        (if nodeEnv == "development" then some e else none), [])
    | none =>
      let data := jsEntries COMPANIES now behs
      let outbound := jsOutbound COMPANIES now behs
      if data.all (fun e => e.hasError) then
        (503, .serviceUnavailable "Service unavailable"
          "Unable to fetch stock data from API" data, outbound)
      else
        (200, .success now data, outbound)

/-- The stocks.js handler: CORS headers set before any branch
(lines 55-57). -/
def handler (method : String) (apiKey : Option String) (nodeEnv : String)
    (now : String) (behs : String → Outcome NinjaPayload) (fault : Option String) :
    Response JsBody × List (String × FetchEvent) :=
  ({ headers := corsHeaders
     status := (handlerCore method apiKey nodeEnv now behs fault).1
     body := (handlerCore method apiKey nodeEnv now behs fault).2.1 },
   (handlerCore method apiKey nodeEnv now behs fault).2.2)

end StocksJs

section FetchLemmas

variable {P Q : Type} {cfg : FetchConfig P Q} {beh : ℕ → Outcome P}

theorem fetchFrom_last_ok {a : ℕ} {q : Q} (h : stepOf cfg beh a = .ok q) :
    fetchFrom cfg beh a 0 = (.success q, [.request a cfg.timeoutMs]) := by
  simp [fetchFrom, h]

theorem fetchFrom_last_rate {a : ℕ} {b : String} (h : stepOf cfg beh a = .rateLimited b) :
    fetchFrom cfg beh a 0 = (.failure (cfg.failMsg 429 b), [.request a cfg.timeoutMs]) := by
  simp [fetchFrom, h]

theorem fetchFrom_last_fail {a : ℕ} {m : String} (h : stepOf cfg beh a = .fail m) :
    fetchFrom cfg beh a 0 = (.failure m, [.request a cfg.timeoutMs]) := by
  simp [fetchFrom, h]

theorem fetchFrom_trace_last (a : ℕ) :
    (fetchFrom cfg beh a 0).2 = [.request a cfg.timeoutMs] := by
  cases hs : stepOf cfg beh a with
  | ok q => rw [fetchFrom_last_ok hs]
  | rateLimited b => rw [fetchFrom_last_rate hs]
  | fail m => rw [fetchFrom_last_fail hs]

theorem fetchFrom_succ_ok {a r : ℕ} {q : Q} (h : stepOf cfg beh a = .ok q) :
    fetchFrom cfg beh a (r + 1) = (.success q, [.request a cfg.timeoutMs]) := by
  simp [fetchFrom, h]

theorem fetchFrom_res_rate {a r : ℕ} {b : String} (h : stepOf cfg beh a = .rateLimited b) :
    (fetchFrom cfg beh a (r + 1)).1 = (fetchFrom cfg beh (a + 1) r).1 := by
  simp [fetchFrom, h]

theorem fetchFrom_trace_rate {a r : ℕ} {b : String} (h : stepOf cfg beh a = .rateLimited b) :
    (fetchFrom cfg beh a (r + 1)).2 =
      .request a cfg.timeoutMs :: .rateLimitDelay (1000 * (a + 1)) ::
        (fetchFrom cfg beh (a + 1) r).2 := by
  simp [fetchFrom, h]

theorem fetchFrom_res_fail {a r : ℕ} {m : String} (h : stepOf cfg beh a = .fail m) :
    (fetchFrom cfg beh a (r + 1)).1 = (fetchFrom cfg beh (a + 1) r).1 := by
  simp [fetchFrom, h]

theorem fetchFrom_trace_fail {a r : ℕ} {m : String} (h : stepOf cfg beh a = .fail m) :
    (fetchFrom cfg beh a (r + 1)).2 =
      .request a cfg.timeoutMs :: .backoffDelay (500 * 2 ^ a) ::
        (fetchFrom cfg beh (a + 1) r).2 := by
  simp [fetchFrom, h]

theorem requestAttempts_nil : requestAttempts [] = [] := rfl

theorem requestAttempts_cons_request (a : ℕ) (t : Option ℕ) (tr : List FetchEvent) :
    requestAttempts (.request a t :: tr) = a :: requestAttempts tr := rfl

theorem requestAttempts_cons_rate (ms : ℕ) (tr : List FetchEvent) :
    requestAttempts (.rateLimitDelay ms :: tr) = requestAttempts tr := rfl

theorem requestAttempts_cons_backoff (ms : ℕ) (tr : List FetchEvent) :
    requestAttempts (.backoffDelay ms :: tr) = requestAttempts tr := rfl

theorem map_add_range_succ (a k : ℕ) :
    (List.range (k + 2)).map (a + ·) = a :: (List.range (k + 1)).map (a + 1 + ·) := by
  rw [List.range_succ_eq_map]
  simp only [List.map_cons, List.map_map, Nat.add_zero]
  refine congrArg (List.cons a) ?_
  apply List.map_congr_left
  intro x _
  simp only [Function.comp_apply]
  omega

/-- Every run issues its first outbound request immediately: the trace
starts with the request of the current attempt. -/
theorem fetchFrom_trace_head (a rem : ℕ) :
    ∃ rest, (fetchFrom cfg beh a rem).2 = .request a cfg.timeoutMs :: rest := by
  cases rem with
  | zero => exact ⟨[], fetchFrom_trace_last a⟩
  | succ r =>
    cases hs : stepOf cfg beh a with
    | ok q => exact ⟨[], by rw [fetchFrom_succ_ok hs]⟩
    | rateLimited b => exact ⟨_, fetchFrom_trace_rate hs⟩
    | fail m => exact ⟨_, fetchFrom_trace_fail hs⟩

/-- The requests of a run are numbered consecutively from the first
attempt, stay within the attempt budget, and stop early only on a
successful attempt. -/
theorem requestAttempts_fetchFrom (a rem : ℕ) :
    ∃ k, k ≤ rem ∧
      requestAttempts (fetchFrom cfg beh a rem).2 = (List.range (k + 1)).map (a + ·) ∧
      (k < rem → stepOk cfg beh (a + k) = true) := by
  induction rem generalizing a with
  | zero =>
    refine ⟨0, Nat.le_refl 0, ?_, by omega⟩
    rw [fetchFrom_trace_last a, requestAttempts_cons_request, requestAttempts_nil]
    simp [List.range_succ]
  | succ r ih =>
    cases hs : stepOf cfg beh a with
    | ok q =>
      refine ⟨0, Nat.zero_le _, ?_, fun _ => by simp [stepOk, hs]⟩
      rw [fetchFrom_succ_ok hs]
      simp only [requestAttempts_cons_request, requestAttempts_nil]
      simp [List.range_succ]
    | rateLimited b =>
      obtain ⟨k, hk, hreq, hlast⟩ := ih (a + 1)
      refine ⟨k + 1, by omega, ?_, ?_⟩
      · rw [fetchFrom_trace_rate hs, requestAttempts_cons_request,
          requestAttempts_cons_rate, hreq, map_add_range_succ]
      · intro _
        rw [show a + (k + 1) = a + 1 + k by omega]
        exact hlast (by omega)
    | fail m =>
      obtain ⟨k, hk, hreq, hlast⟩ := ih (a + 1)
      refine ⟨k + 1, by omega, ?_, ?_⟩
      · rw [fetchFrom_trace_fail hs, requestAttempts_cons_request,
          requestAttempts_cons_backoff, hreq, map_add_range_succ]
      · intro _
        rw [show a + (k + 1) = a + 1 + k by omega]
        exact hlast (by omega)

/-- Every request event in a run's trace carries the configured
timeout bound, and its attempt number lies in the attempt window. -/
theorem request_mem_fetchFrom (a rem i : ℕ) (t : Option ℕ)
    (h : FetchEvent.request i t ∈ (fetchFrom cfg beh a rem).2) :
    t = cfg.timeoutMs ∧ a ≤ i ∧ i ≤ a + rem := by
  induction rem generalizing a with
  | zero =>
    rw [fetchFrom_trace_last a] at h
    simp only [List.mem_singleton, FetchEvent.request.injEq] at h
    obtain ⟨hi, ht⟩ := h
    exact ⟨ht, by omega, by omega⟩
  | succ r ih =>
    cases hs : stepOf cfg beh a with
    | ok q =>
      rw [fetchFrom_succ_ok hs] at h
      simp only [List.mem_singleton, FetchEvent.request.injEq] at h
      obtain ⟨hi, ht⟩ := h
      exact ⟨ht, by omega, by omega⟩
    | rateLimited b =>
      rw [fetchFrom_trace_rate hs] at h
      simp only [List.mem_cons, FetchEvent.request.injEq] at h
      rcases h with ⟨hi, ht⟩ | h | h
      · exact ⟨ht, by omega, by omega⟩
      · exact absurd h (by simp)
      · obtain ⟨ht, h1, h2⟩ := ih (a + 1) h
        exact ⟨ht, by omega, by omega⟩
    | fail m =>
      rw [fetchFrom_trace_fail hs] at h
      simp only [List.mem_cons, FetchEvent.request.injEq] at h
      rcases h with ⟨hi, ht⟩ | h | h
      · exact ⟨ht, by omega, by omega⟩
      · exact absurd h (by simp)
      · obtain ⟨ht, h1, h2⟩ := ih (a + 1) h
        exact ⟨ht, by omega, by omega⟩

theorem adjacent_cons {x y : FetchEvent} {tr : List FetchEvent} (e : FetchEvent)
    (h : Adjacent x y tr) : Adjacent x y (e :: tr) := by
  obtain ⟨pre, post, rfl⟩ := h
  exact ⟨e :: pre, post, rfl⟩

theorem adjacent3_cons {x y z : FetchEvent} {tr : List FetchEvent} (e : FetchEvent)
    (h : Adjacent3 x y z tr) : Adjacent3 x y z (e :: tr) := by
  obtain ⟨pre, post, rfl⟩ := h
  exact ⟨e :: pre, post, rfl⟩

/-- Exponential backoff: each failed attempt that is not the last one
is immediately followed in the trace by the `500 * 2 ^ attempt` ms
backoff delay. -/
theorem backoff_follows_failed_attempt (a rem i : ℕ)
    (hmem : FetchEvent.request i cfg.timeoutMs ∈ (fetchFrom cfg beh a rem).2)
    (hlt : i + 1 ≤ a + rem) (hfail : stepFails cfg beh i = true) :
    Adjacent (.request i cfg.timeoutMs) (.backoffDelay (500 * 2 ^ i))
      (fetchFrom cfg beh a rem).2 := by
  induction rem generalizing a with
  | zero =>
    rw [fetchFrom_trace_last a] at hmem
    simp only [List.mem_singleton, FetchEvent.request.injEq] at hmem
    omega
  | succ r ih =>
    cases hs : stepOf cfg beh a with
    | ok q =>
      rw [fetchFrom_succ_ok hs] at hmem
      simp only [List.mem_singleton, FetchEvent.request.injEq] at hmem
      obtain ⟨rfl, -⟩ := hmem
      simp [stepFails, hs] at hfail
    | rateLimited b =>
      rw [fetchFrom_trace_rate hs] at hmem ⊢
      simp only [List.mem_cons, FetchEvent.request.injEq] at hmem
      rcases hmem with ⟨rfl, -⟩ | h | h
      · simp [stepFails, hs] at hfail
      · exact absurd h (by simp)
      · exact adjacent_cons _ (adjacent_cons _ (ih (a + 1) h (by omega)))
    | fail m =>
      by_cases hia : i = a
      · subst hia
        rw [fetchFrom_trace_fail hs]
        exact ⟨[], _, rfl⟩
      · rw [fetchFrom_trace_fail hs] at hmem ⊢
        simp only [List.mem_cons, FetchEvent.request.injEq] at hmem
        rcases hmem with ⟨rfl, -⟩ | h | h
        · exact absurd rfl hia
        · exact absurd h (by simp)
        · exact adjacent_cons _ (adjacent_cons _ (ih (a + 1) h (by omega)))

/-- Rate-limit handling: a 429 attempt that is not the last one is
immediately followed in the trace by the `1000 * (attempt + 1)` ms
delay and then by the request of the next attempt. -/
theorem rate_limit_follows_429 (a rem i : ℕ)
    (hmem : FetchEvent.request i cfg.timeoutMs ∈ (fetchFrom cfg beh a rem).2)
    (hlt : i + 1 ≤ a + rem) (hrate : stepRate cfg beh i = true) :
    Adjacent3 (.request i cfg.timeoutMs) (.rateLimitDelay (1000 * (i + 1)))
      (.request (i + 1) cfg.timeoutMs) (fetchFrom cfg beh a rem).2 := by
  induction rem generalizing a with
  | zero =>
    rw [fetchFrom_trace_last a] at hmem
    simp only [List.mem_singleton, FetchEvent.request.injEq] at hmem
    omega
  | succ r ih =>
    cases hs : stepOf cfg beh a with
    | ok q =>
      rw [fetchFrom_succ_ok hs] at hmem
      simp only [List.mem_singleton, FetchEvent.request.injEq] at hmem
      obtain ⟨rfl, -⟩ := hmem
      simp [stepRate, hs] at hrate
    | rateLimited b =>
      by_cases hia : i = a
      · subst hia
        rw [fetchFrom_trace_rate hs]
        obtain ⟨rest, hrest⟩ := @fetchFrom_trace_head P Q cfg beh (i + 1) r
        rw [hrest]
        exact ⟨[], rest, rfl⟩
      · rw [fetchFrom_trace_rate hs] at hmem ⊢
        simp only [List.mem_cons, FetchEvent.request.injEq] at hmem
        rcases hmem with ⟨rfl, -⟩ | h | h
        · exact absurd rfl hia
        · exact absurd h (by simp)
        · exact adjacent3_cons _ (adjacent3_cons _ (ih (a + 1) h (by omega)))
    | fail m =>
      rw [fetchFrom_trace_fail hs] at hmem ⊢
      simp only [List.mem_cons, FetchEvent.request.injEq] at hmem
      rcases hmem with ⟨rfl, -⟩ | h | h
      · simp [stepRate, hs] at hrate
      · exact absurd h (by simp)
      · exact adjacent3_cons _ (adjacent3_cons _ (ih (a + 1) h (by omega)))

end FetchLemmas

section FetchResultLemmas

variable {P Q : Type} {cfg : FetchConfig P Q} {beh : ℕ → Outcome P}

/-- A run of the loop body always resolves with a quote or throws an
error; it never falls off the loop. -/
theorem fetchFrom_result (a rem : ℕ) :
    (∃ q, (fetchFrom cfg beh a rem).1 = .success q) ∨
    (∃ m, (fetchFrom cfg beh a rem).1 = .failure m) := by
  induction rem generalizing a with
  | zero =>
    cases hs : stepOf cfg beh a with
    | ok q => exact Or.inl ⟨q, by rw [fetchFrom_last_ok hs]⟩
    | rateLimited b => exact Or.inr ⟨_, by rw [fetchFrom_last_rate hs]⟩
    | fail m => exact Or.inr ⟨m, by rw [fetchFrom_last_fail hs]⟩
  | succ r ih =>
    cases hs : stepOf cfg beh a with
    | ok q => exact Or.inl ⟨q, by rw [fetchFrom_succ_ok hs]⟩
    | rateLimited b => rw [fetchFrom_res_rate hs]; exact ih (a + 1)
    | fail m => rw [fetchFrom_res_fail hs]; exact ih (a + 1)

/-- When the whole call throws, the thrown message is the error of the
last attempt (attempt number `first + rem`), and that attempt did not
succeed. -/
theorem fetchFrom_failure_msg (a rem : ℕ) (m : String)
    (h : (fetchFrom cfg beh a rem).1 = .failure m) :
    m = stepErrOf cfg beh (a + rem) ∧ stepOk cfg beh (a + rem) = false := by
  induction rem generalizing a with
  | zero =>
    cases hs : stepOf cfg beh a with
    | ok q => rw [fetchFrom_last_ok hs] at h; exact absurd h (by simp)
    | rateLimited b =>
      rw [fetchFrom_last_rate hs] at h
      simp only [FetchResult.failure.injEq] at h
      exact ⟨by rw [← h]; simp [stepErrOf, hs], by simp [stepOk, hs]⟩
    | fail m2 =>
      rw [fetchFrom_last_fail hs] at h
      simp only [FetchResult.failure.injEq] at h
      exact ⟨by rw [← h]; simp [stepErrOf, hs], by simp [stepOk, hs]⟩
  | succ r ih =>
    cases hs : stepOf cfg beh a with
    | ok q => rw [fetchFrom_succ_ok hs] at h; exact absurd h (by simp)
    | rateLimited b =>
      rw [fetchFrom_res_rate hs] at h
      have := ih (a + 1) h
      rwa [show a + 1 + r = a + (r + 1) by omega] at this
    | fail m2 =>
      rw [fetchFrom_res_fail hs] at h
      have := ih (a + 1) h
      rwa [show a + 1 + r = a + (r + 1) by omega] at this

/-- A successful attempt resolution always carries a quote built by
the configured constructor from some payload. -/
theorem stepOf_ok_shape {i : ℕ} {q : Q} (h : stepOf cfg beh i = .ok q) :
    ∃ p, q = cfg.mkQuote p := by
  cases hb : beh i with
  | fetchError msg => simp [stepOf, hb] at h
  | response status body json =>
    simp only [stepOf, hb] at h
    by_cases hok : 200 ≤ status ∧ status ≤ 299
    · rw [if_pos hok] at h
      cases json with
      | error jmsg => exact absurd h (by simp)
      | ok p =>
        by_cases hnd : cfg.isNoData p = true
        · simp [hnd] at h
        · simp only [hnd, Bool.false_eq_true, if_false] at h
          exact ⟨p, by cases h; rfl⟩
    · rw [if_neg hok] at h
      by_cases h429 : status = 429
      · simp [h429] at h
      · simp [h429] at h

/-- A successful fetch resolves with a quote built by the configured
constructor. -/
theorem fetchFrom_success_shape (a rem : ℕ) (q : Q)
    (h : (fetchFrom cfg beh a rem).1 = .success q) : ∃ p, q = cfg.mkQuote p := by
  induction rem generalizing a with
  | zero =>
    cases hs : stepOf cfg beh a with
    | ok q2 =>
      rw [fetchFrom_last_ok hs] at h
      simp only [FetchResult.success.injEq] at h
      exact h ▸ stepOf_ok_shape hs
    | rateLimited b => rw [fetchFrom_last_rate hs] at h; exact absurd h (by simp)
    | fail m => rw [fetchFrom_last_fail hs] at h; exact absurd h (by simp)
  | succ r ih =>
    cases hs : stepOf cfg beh a with
    | ok q2 =>
      rw [fetchFrom_succ_ok hs] at h
      simp only [FetchResult.success.injEq] at h
      exact h ▸ stepOf_ok_shape hs
    | rateLimited b => rw [fetchFrom_res_rate hs] at h; exact ih (a + 1) h
    | fail m => rw [fetchFrom_res_fail hs] at h; exact ih (a + 1) h

/-- A successful fetch has a successful attempt in the window. -/
theorem fetchFrom_success_step (a rem : ℕ) (q : Q)
    (h : (fetchFrom cfg beh a rem).1 = .success q) :
    ∃ i, a ≤ i ∧ i ≤ a + rem ∧ stepOk cfg beh i = true := by
  induction rem generalizing a with
  | zero =>
    cases hs : stepOf cfg beh a with
    | ok q2 => exact ⟨a, by omega, by omega, by simp [stepOk, hs]⟩
    | rateLimited b => rw [fetchFrom_last_rate hs] at h; exact absurd h (by simp)
    | fail m => rw [fetchFrom_last_fail hs] at h; exact absurd h (by simp)
  | succ r ih =>
    cases hs : stepOf cfg beh a with
    | ok q2 => exact ⟨a, by omega, by omega, by simp [stepOk, hs]⟩
    | rateLimited b =>
      rw [fetchFrom_res_rate hs] at h
      obtain ⟨i, h1, h2, h3⟩ := ih (a + 1) h
      exact ⟨i, by omega, by omega, h3⟩
    | fail m =>
      rw [fetchFrom_res_fail hs] at h
      obtain ⟨i, h1, h2, h3⟩ := ih (a + 1) h
      exact ⟨i, by omega, by omega, h3⟩

/-- When every attempt in the window fails, the call throws the last
attempt's error. -/
theorem fetchFrom_all_fail (a rem : ℕ)
    (h : ∀ i, a ≤ i → i ≤ a + rem → stepOk cfg beh i = false) :
    (fetchFrom cfg beh a rem).1 = .failure (stepErrOf cfg beh (a + rem)) := by
  rcases @fetchFrom_result P Q cfg beh a rem with ⟨q, hq⟩ | ⟨m, hm⟩
  · obtain ⟨i, h1, h2, h3⟩ := fetchFrom_success_step a rem q hq
    rw [h i h1 h2] at h3
    exact absurd h3 (by simp)
  · obtain ⟨hmsg, -⟩ := fetchFrom_failure_msg a rem m hm
    rw [hm, hmsg]

end FetchResultLemmas

section MessageLemmas

variable {P Q : Type} {cfg : FetchConfig P Q} {beh : ℕ → Outcome P}

theorem append_left_ne_empty (a b : String) (h : a ≠ "") : a ++ b ≠ "" := by
  intro hab
  apply h
  have hd : (a ++ b).data = ([] : List Char) := by rw [hab]
  rw [String.data_append] at hd
  have ha : a.data = [] := (List.append_eq_nil.mp hd).1
  cases a
  simp_all [String.ext_iff]

/-- Where a failed attempt's message comes from: the `fetch` rejection,
the `response.json()` rejection, the "no data" sentinel message, or the
"API request failed" message. -/
theorem stepOf_fail_msg {i : ℕ} {m : String} (h : stepOf cfg beh i = .fail m) :
    beh i = .fetchError m ∨ (∃ s b, beh i = .response s b (.error m)) ∨
    m = cfg.noDataMsg ∨ (∃ s b, m = cfg.failMsg s b) := by
  cases hb : beh i with
  | fetchError msg =>
    simp only [stepOf, hb, StepRes.fail.injEq] at h
    exact Or.inl (by rw [h])
  | response status body json =>
    simp only [stepOf, hb] at h
    by_cases hok : 200 ≤ status ∧ status ≤ 299
    · rw [if_pos hok] at h
      cases json with
      | error jmsg =>
        simp only [StepRes.fail.injEq] at h
        exact Or.inr (Or.inl ⟨status, body, by rw [h]⟩)
      | ok p =>
        by_cases hnd : cfg.isNoData p = true
        · simp only [hnd, if_true, StepRes.fail.injEq] at h
          exact Or.inr (Or.inr (Or.inl h.symm))
        · simp [hnd] at h
    · rw [if_neg hok] at h
      by_cases h429 : status = 429
      · simp [h429] at h
      · simp only [h429, if_false, StepRes.fail.injEq] at h
        exact Or.inr (Or.inr (Or.inr ⟨status, body, h.symm⟩))

/-- The error a non-successful attempt surfaces is never the empty
string, provided the configured messages are non-empty and the
behaviour only injects non-empty error strings. -/
theorem stepErrOf_ne_empty (hcfg1 : ∀ s b, cfg.failMsg s b ≠ "") (hcfg2 : cfg.noDataMsg ≠ "")
    (hbeh : ∀ i, outcomeMsgNonempty (beh i) = true) (i : ℕ)
    (hok : stepOk cfg beh i = false) : stepErrOf cfg beh i ≠ "" := by
  unfold stepErrOf
  cases hs : stepOf cfg beh i with
  | ok q => simp [stepOk, hs] at hok
  | rateLimited b => exact hcfg1 429 b
  | fail m =>
    rcases stepOf_fail_msg hs with hb | ⟨s, b, hb⟩ | hb | ⟨s, b, hb⟩
    · have := hbeh i
      rw [hb] at this
      simpa [outcomeMsgNonempty] using this
    · have := hbeh i
      rw [hb] at this
      simpa [outcomeMsgNonempty] using this
    · rw [hb]; exact hcfg2
    · rw [hb]; exact hcfg1 s b

/-- The handlers call the retrying fetchers with the default
`retries = 2`, which enters the loop with two further attempts
allowed. -/
theorem fetchWithRetry_two (cfg : FetchConfig P Q) (beh : ℕ → Outcome P) :
    fetchWithRetry cfg beh 2 = fetchFrom cfg beh 0 2 := rfl

end MessageLemmas

namespace Economic

theorem indicator_failMsg_ne (sym : String) (info : IndicatorInfo) (now : String) :
    ∀ s b, (indicatorCfg sym info now).failMsg s b ≠ "" := by
  intro s b
  show "API request failed for " ++ sym ++ ": " ++ toString s ++ " - " ++ b ≠ ""
  apply append_left_ne_empty
  apply append_left_ne_empty
  apply append_left_ne_empty
  apply append_left_ne_empty
  apply append_left_ne_empty
  decide

theorem indicator_noDataMsg_ne (sym : String) (info : IndicatorInfo) (now : String) :
    (indicatorCfg sym info now).noDataMsg ≠ "" :=
  append_left_ne_empty _ _ (by decide)

/-- A settled slot is either a resolved quote built from some payload,
or the error object for the thrown message of the last attempt. -/
theorem settleIndicator_cases (sym : String) (info : IndicatorInfo) (now : String)
    (beh : ℕ → Outcome Payload) :
    (∃ q, settleIndicator sym info now beh = .ok q ∧
      ∃ p, q = mkIndicatorQuote sym info now p) ∨
    (∃ e, settleIndicator sym info now beh =
        .err sym info.name info.type info.description e now ∧
      e = stepErrOf (indicatorCfg sym info now) beh 2 ∧
      stepOk (indicatorCfg sym info now) beh 2 = false) := by
  unfold settleIndicator fetchIndicator
  rw [fetchWithRetry_two]
  rcases @fetchFrom_result Payload IndicatorQuote (indicatorCfg sym info now) beh 0 2 with
    ⟨q, hq⟩ | ⟨m, hm⟩
  · rw [hq]
    exact Or.inl ⟨q, rfl, fetchFrom_success_shape 0 2 q hq⟩
  · rw [hm]
    obtain ⟨hmsg, hok⟩ := fetchFrom_failure_msg 0 2 m hm
    exact Or.inr ⟨m, rfl, by simpa using hmsg, by simpa using hok⟩

theorem settleIndicator_matches (sym : String) (info : IndicatorInfo) (now : String)
    (beh : ℕ → Outcome Payload) :
    matchesDescriptorE sym info (settleIndicator sym info now beh) := by
  rcases settleIndicator_cases sym info now beh with ⟨q, hq, p, rfl⟩ | ⟨e, he, -, -⟩
  · rw [hq]; exact ⟨rfl, rfl, rfl, rfl⟩
  · rw [he]; exact ⟨rfl, rfl, rfl, rfl⟩

theorem settleIndicator_ne_undef (sym : String) (info : IndicatorInfo) (now : String)
    (beh : ℕ → Outcome Payload) : settleIndicator sym info now beh ≠ .undefinedSlot := by
  rcases settleIndicator_cases sym info now beh with ⟨q, hq, -⟩ | ⟨e, he, -, -⟩
  · rw [hq]; simp
  · rw [he]; simp

/-- With non-empty behaviour error strings, `indicator.error` is truthy
exactly on the Failure variant. -/
theorem settleIndicator_hasError_eq (sym : String) (info : IndicatorInfo) (now : String)
    (beh : ℕ → Outcome Payload) (hbeh : ∀ i, outcomeMsgNonempty (beh i) = true) :
    (settleIndicator sym info now beh).hasError = !(settleIndicator sym info now beh).isOk := by
  rcases settleIndicator_cases sym info now beh with ⟨q, hq, -⟩ | ⟨e, he, hmsg, hok⟩
  · rw [hq]; rfl
  · rw [he]
    have hne : e ≠ "" := by
      rw [hmsg]
      exact stepErrOf_ne_empty (indicator_failMsg_ne sym info now)
        (indicator_noDataMsg_ne sym info now) hbeh 2 hok
    simp [IndicatorEntry.hasError, IndicatorEntry.isOk, hne]

theorem indicatorEntries_length (registry : List (String × IndicatorInfo)) (now : String)
    (behs : String → ℕ → Outcome Payload) :
    (indicatorEntries registry now behs).length = registry.length := by
  simp [indicatorEntries]

theorem indicatorEntries_mem (registry : List (String × IndicatorInfo)) (now : String)
    (behs : String → ℕ → Outcome Payload)
    (hbeh : ∀ sym i, outcomeMsgNonempty (behs sym i) = true)
    (e : IndicatorEntry) (he : e ∈ indicatorEntries registry now behs) :
    e.hasError = !e.isOk := by
  obtain ⟨si, hsi, rfl⟩ := List.mem_map.mp he
  exact settleIndicator_hasError_eq si.1 si.2 now (behs si.1) (hbeh si.1)

theorem groupLookup_nil (c : String) : groupLookup [] c = [] := rfl

theorem groupLookup_cons (k : String) (l : List IndicatorEntry)
    (rest : List (String × List IndicatorEntry)) (c : String) :
    groupLookup ((k, l) :: rest) c = if k == c then l else groupLookup rest c := by
  by_cases hkc : k = c
  · simp [groupLookup, List.find?_cons, hkc]
  · simp [groupLookup, List.find?_cons, hkc]

theorem insertGrouped_nil (t : String) (e : IndicatorEntry) :
    insertGrouped [] t e = [(t, [e])] := rfl

theorem insertGrouped_cons (k : String) (l : List IndicatorEntry)
    (rest : List (String × List IndicatorEntry)) (t : String) (e : IndicatorEntry) :
    insertGrouped ((k, l) :: rest) t e =
      if k == t then (k, l ++ [e]) :: rest else (k, l) :: insertGrouped rest t e := rfl

theorem groupLookup_insertGrouped (g : List (String × List IndicatorEntry)) (c t : String)
    (e : IndicatorEntry) :
    groupLookup (insertGrouped g t e) c =
      groupLookup g c ++ (if t == c then [e] else []) := by
  induction g with
  | nil =>
    rw [insertGrouped_nil, groupLookup_cons, groupLookup_nil]
    simp
  | cons kl rest ih =>
    obtain ⟨k, l⟩ := kl
    rw [insertGrouped_cons]
    by_cases hkt : k = t
    · subst hkt
      simp only [beq_self_eq_true, if_true]
      rw [groupLookup_cons, groupLookup_cons]
      by_cases hkc : k = c
      · subst hkc
        simp
      · simp [hkc]
    · have hkt2 : (k == t) = false := by simp [hkt]
      rw [hkt2]
      simp only [Bool.false_eq_true, if_false]
      rw [groupLookup_cons, groupLookup_cons]
      by_cases hkc : k = c
      · subst hkc
        have htk : ¬t = k := fun h => hkt h.symm
        simp [htk]
      · simp [hkc, ih]

theorem groupLookup_foldl (data : List IndicatorEntry)
    (acc : List (String × List IndicatorEntry)) (c : String) :
    groupLookup
      (data.foldl (fun acc e => if e.hasError then acc else insertGrouped acc e.typeOf e) acc) c
      = groupLookup acc c ++ data.filter (fun e => !e.hasError && e.typeOf == c) := by
  induction data generalizing acc with
  | nil => simp
  | cons e rest ih =>
    by_cases herr : e.hasError = true
    · simp only [List.foldl_cons, herr, if_true, List.filter_cons, Bool.not_true,
        Bool.false_and, Bool.false_eq_true, if_false]
      exact ih acc
    · have herr2 : e.hasError = false := by simpa using herr
      simp only [List.foldl_cons, herr2, Bool.false_eq_true, if_false, List.filter_cons,
        Bool.not_false, Bool.true_and]
      rw [ih (insertGrouped acc e.typeOf e), groupLookup_insertGrouped]
      by_cases htc : e.typeOf = c
      · simp [htc]
      · simp [htc]

/-- Looking a category up in the grouped view yields exactly the
entries of that category whose `error` field is falsy, in the order of
the main sequence. -/
theorem groupLookup_groupedOf (data : List IndicatorEntry) (c : String) :
    groupLookup (groupedOf data) c = data.filter (fun e => !e.hasError && e.typeOf == c) := by
  have h := groupLookup_foldl data [] c
  rw [groupLookup_nil] at h
  simpa [groupedOf] using h

end Economic

namespace Stocks

theorem stock_failMsg_ne (ticker : String) (info : CompanyInfo) (now : String) :
    ∀ s b, (stockCfg ticker info now).failMsg s b ≠ "" := by
  intro s b
  show "API request failed for " ++ ticker ++ ": " ++ toString s ++ " - " ++ b ≠ ""
  apply append_left_ne_empty
  apply append_left_ne_empty
  apply append_left_ne_empty
  apply append_left_ne_empty
  apply append_left_ne_empty
  decide

theorem stock_noDataMsg_ne (ticker : String) (info : CompanyInfo) (now : String) :
    (stockCfg ticker info now).noDataMsg ≠ "" := by
  show "No data available for " ++ ticker ++ " (market may be closed or invalid ticker)" ≠ ""
  apply append_left_ne_empty
  apply append_left_ne_empty
  decide

/-- A settled slot is either a resolved quote built from some payload,
or the error object for the thrown message of the last attempt. -/
theorem settleStock_cases (ticker : String) (info : CompanyInfo) (now : String)
    (beh : ℕ → Outcome Payload) :
    (∃ q, settleStock ticker info now beh = .ok q ∧
      ∃ p, q = mkStockQuote ticker info now p) ∨
    (∃ e, settleStock ticker info now beh = .err ticker info.name info.sector e now ∧
      e = stepErrOf (stockCfg ticker info now) beh 2 ∧
      stepOk (stockCfg ticker info now) beh 2 = false) := by
  unfold settleStock fetchStockPrice
  rw [fetchWithRetry_two]
  rcases @fetchFrom_result Payload StockQuote (stockCfg ticker info now) beh 0 2 with
    ⟨q, hq⟩ | ⟨m, hm⟩
  · rw [hq]
    exact Or.inl ⟨q, rfl, fetchFrom_success_shape 0 2 q hq⟩
  · rw [hm]
    obtain ⟨hmsg, hok⟩ := fetchFrom_failure_msg 0 2 m hm
    exact Or.inr ⟨m, rfl, by simpa using hmsg, by simpa using hok⟩

theorem settleStock_matches (ticker : String) (info : CompanyInfo) (now : String)
    (beh : ℕ → Outcome Payload) :
    matchesDescriptorS ticker info (settleStock ticker info now beh) := by
  rcases settleStock_cases ticker info now beh with ⟨q, hq, p, rfl⟩ | ⟨e, he, -, -⟩
  · rw [hq]; exact ⟨rfl, rfl, rfl⟩
  · rw [he]; exact ⟨rfl, rfl, rfl⟩

theorem settleStock_ne_undef (ticker : String) (info : CompanyInfo) (now : String)
    (beh : ℕ → Outcome Payload) : settleStock ticker info now beh ≠ .undefinedSlot := by
  rcases settleStock_cases ticker info now beh with ⟨q, hq, -⟩ | ⟨e, he, -, -⟩
  · rw [hq]; simp
  · rw [he]; simp

theorem stockEntries_length (registry : List (String × CompanyInfo)) (now : String)
    (behs : String → ℕ → Outcome Payload) :
    (stockEntries registry now behs).length = registry.length := by
  simp [stockEntries]

end Stocks


namespace StocksJs

theorem fetchStockPrice_fetchError (ticker name now msg : String) :
    fetchStockPrice ticker name now (.fetchError msg) = (.error msg, [.request 0 none]) := by
  simp [fetchStockPrice]

theorem fetchStockPrice_ok {status : ℕ} (ticker name now body : String) (p : NinjaPayload)
    (h : 200 ≤ status ∧ status ≤ 299) :
    fetchStockPrice ticker name now (.response status body (.ok p)) =
      (.ok { ticker := ticker, companyName := name, price := p.price, timestamp := now },
       [.request 0 none]) := by
  simp only [fetchStockPrice]
  rw [if_pos h]

theorem fetchStockPrice_jsonErr {status : ℕ} (ticker name now body jmsg : String)
    (h : 200 ≤ status ∧ status ≤ 299) :
    fetchStockPrice ticker name now (.response status body (.error jmsg)) =
      (.error jmsg, [.request 0 none]) := by
  simp only [fetchStockPrice]
  rw [if_pos h]

theorem fetchStockPrice_badStatus {status : ℕ} (ticker name now body : String)
    (json : Except String NinjaPayload) (h : ¬(200 ≤ status ∧ status ≤ 299)) :
    fetchStockPrice ticker name now (.response status body json) =
      (.error ("API request failed for " ++ ticker ++ ": " ++ toString status),
       [.request 0 none]) := by
  simp only [fetchStockPrice]
  rw [if_neg h]

/-- A settled slot of the stocks.js fan-out is a resolved quote or the
error object keyed by the same ticker with its company name. -/
theorem settleJs_cases (ticker name now : String) (o : Outcome NinjaPayload) :
    (∃ q, settleJs ticker name now o = .ok q ∧
      q.ticker = ticker ∧ q.companyName = name ∧ q.timestamp = now) ∨
    (∃ e, settleJs ticker name now o = .err ticker name e now ∧
      (outcomeMsgNonempty o = true → e ≠ "")) := by
  unfold settleJs
  cases o with
  | fetchError msg =>
    rw [fetchStockPrice_fetchError]
    refine Or.inr ⟨msg, rfl, fun hne => ?_⟩
    simpa [outcomeMsgNonempty] using hne
  | response status body json =>
    by_cases hok : 200 ≤ status ∧ status ≤ 299
    · cases json with
      | error jmsg =>
        rw [fetchStockPrice_jsonErr ticker name now body jmsg hok]
        refine Or.inr ⟨jmsg, rfl, fun hne => ?_⟩
        simpa [outcomeMsgNonempty] using hne
      | ok p =>
        rw [fetchStockPrice_ok ticker name now body p hok]
        exact Or.inl ⟨_, rfl, rfl, rfl, rfl⟩
    · rw [fetchStockPrice_badStatus ticker name now body json hok]
      refine Or.inr ⟨_, rfl, fun _ => ?_⟩
      apply append_left_ne_empty
      apply append_left_ne_empty
      apply append_left_ne_empty
      decide

/-- With non-empty behaviour error strings, `stock.error` is truthy
exactly on the Failure variant. -/
theorem settleJs_hasError_eq (ticker name now : String) (o : Outcome NinjaPayload)
    (hne : outcomeMsgNonempty o = true) :
    (settleJs ticker name now o).hasError = !(settleJs ticker name now o).isOk := by
  rcases settleJs_cases ticker name now o with ⟨q, hq, -⟩ | ⟨e, he, hemsg⟩
  · rw [hq]; rfl
  · rw [he]
    simp [JsEntry.hasError, JsEntry.isOk, hemsg hne]

theorem jsEntries_length (registry : List (String × String)) (now : String)
    (behs : String → Outcome NinjaPayload) :
    (jsEntries registry now behs).length = registry.length := by
  simp [jsEntries]

theorem jsEntries_mem (registry : List (String × String)) (now : String)
    (behs : String → Outcome NinjaPayload)
    (hbeh : ∀ sym, outcomeMsgNonempty (behs sym) = true)
    (e : JsEntry) (he : e ∈ jsEntries registry now behs) :
    e.hasError = !e.isOk := by
  obtain ⟨si, hsi, rfl⟩ := List.mem_map.mp he
  exact settleJs_hasError_eq si.1 si.2 now (behs si.1) (hbeh si.1)

end StocksJs


section PromiseAll

variable {α : Type}

/-- The slot a completion order leaves at index `j`: the promise's own
value as soon as `j` completed at some point, untouched otherwise —
writes of other indices never touch slot `j`. -/
theorem promiseAllFun_apply (results : List α) (order : List ℕ) (slots : ℕ → Option α)
    (j : ℕ) :
    promiseAllFun results order slots j =
      if j ∈ order then results.get? j else slots j := by
  induction order generalizing slots with
  | nil => simp [promiseAllFun]
  | cons i rest ih =>
    simp only [promiseAllFun]
    rw [ih]
    by_cases hr : j ∈ rest
    · simp [hr, List.mem_cons]
    · by_cases hij : j = i
      · subst hij
        simp [hr, List.mem_cons]
      · simp [hr, hij, List.mem_cons]

/-- Whenever every pending operation completes exactly once — the
completion order is a permutation of the indices — `Promise.all`
resolves with the input list itself, index-aligned: the completion
order cannot change the assembled array. -/
theorem promiseAll_perm (results : List α) (order : List ℕ)
    (hp : order.Perm (List.range results.length)) :
    promiseAll results order = results.map some := by
  unfold promiseAll
  apply List.ext_getElem?
  intro j
  rw [List.getElem?_map, List.getElem?_map]
  by_cases hj : j < results.length
  · rw [List.getElem?_range hj, List.getElem?_eq_getElem hj]
    have hmem : j ∈ order := hp.mem_iff.mpr (List.mem_range.mpr hj)
    simp only [Option.map_some']
    rw [promiseAllFun_apply, if_pos hmem, List.get?_eq_getElem?,
      List.getElem?_eq_getElem hj]
  · have h1 : (List.range results.length)[j]? = none := by
      rw [List.getElem?_eq_none_iff]
      simpa using Nat.le_of_not_lt hj
    have h2 : results[j]? = none := by
      rw [List.getElem?_eq_none_iff]
      exact Nat.le_of_not_lt hj
    rw [h1, h2]
    rfl

end PromiseAll

namespace Economic

/-- On a GET request with a truthy credential and no unexpected fault,
the handler core reaches the response policy on the aggregated data. -/
theorem economic_handlerCore_get (apiKey : Option String) (nodeEnv now : String)
    (behs : String → ℕ → Outcome Payload) (hkey : jsTruthy apiKey = true) :
    handlerCore "GET" apiKey nodeEnv now behs none =
      (if (indicatorEntries INDICATORS now behs).all (fun e => e.hasError) then
        (503, EconomicBody.serviceUnavailable "Service unavailable"
          "Unable to fetch economic indicator data from API"
          (indicatorEntries INDICATORS now behs),
         indicatorOutbound INDICATORS now behs)
      else
        (200, EconomicBody.success now (indicatorEntries INDICATORS now behs)
          (groupedOf (indicatorEntries INDICATORS now behs)),
         indicatorOutbound INDICATORS now behs)) := by
  unfold handlerCore
  rw [hkey]
  rfl

end Economic

namespace StocksJs

/-- On a GET request with a truthy credential and no unexpected fault,
the handler core reaches the response policy on the aggregated data. -/
theorem stocksJs_handlerCore_get (apiKey : Option String) (nodeEnv now : String)
    (behs : String → Outcome NinjaPayload) (hkey : jsTruthy apiKey = true) :
    handlerCore "GET" apiKey nodeEnv now behs none =
      (if (jsEntries COMPANIES now behs).all (fun e => e.hasError) then
        (503, JsBody.serviceUnavailable "Service unavailable"
          "Unable to fetch stock data from API" (jsEntries COMPANIES now behs),
         jsOutbound COMPANIES now behs)
      else
        (200, JsBody.success now (jsEntries COMPANIES now behs),
         jsOutbound COMPANIES now behs)) := by
  unfold handlerCore
  rw [hkey]
  rfl

end StocksJs

/-- C7: if every attempt of a retrying fetcher call fails, the call
throws exactly the error of the last attempt (attempt `retries`, via
`stepErrOf`), not an earlier attempt's error; and the fetcher itself
only ever resolves with a quote or throws — mapping a thrown error
into the Failure-variant entry (`.err`, with descriptor metadata) is
done only by the aggregator's per-symbol `.catch`, whose two cases are
stated here for both retrying pipelines. -/
theorem claim_C7_last_error_and_aggregator_mapping :
    (∀ {P Q : Type} (cfg : FetchConfig P Q) (beh : ℕ → Outcome P) (r : ℕ),
      (∀ i, i ≤ r → stepOk cfg beh i = false) →
      (fetchWithRetry cfg beh (r : ℤ)).1 = .failure (stepErrOf cfg beh r)) ∧
    (∀ (sym : String) (info : Economic.IndicatorInfo) (now : String)
       (beh : ℕ → Outcome Payload) (e : String),
      (Economic.fetchIndicator sym info now beh 2).1 = .failure e →
      Economic.settleIndicator sym info now beh =
        .err sym info.name info.type info.description e now) ∧
    (∀ (sym : String) (info : Economic.IndicatorInfo) (now : String)
       (beh : ℕ → Outcome Payload) (q : Economic.IndicatorQuote),
      (Economic.fetchIndicator sym info now beh 2).1 = .success q →
      Economic.settleIndicator sym info now beh = .ok q) ∧
    (∀ (ticker : String) (info : Stocks.CompanyInfo) (now : String)
       (beh : ℕ → Outcome Payload) (e : String),
      (Stocks.fetchStockPrice ticker info now beh 2).1 = .failure e →
      Stocks.settleStock ticker info now beh = .err ticker info.name info.sector e now) ∧
    (∀ (ticker : String) (info : Stocks.CompanyInfo) (now : String)
       (beh : ℕ → Outcome Payload) (q : Stocks.StockQuote),
      (Stocks.fetchStockPrice ticker info now beh 2).1 = .success q →
      Stocks.settleStock ticker info now beh = .ok q) := by
  refine ⟨?_, ?_, ?_, ?_, ?_⟩
  · intro P Q cfg beh r hfail
    unfold fetchWithRetry
    rw [if_pos (by exact_mod_cast Int.natCast_nonneg r)]
    have ht : ((r : ℤ)).toNat = r := Int.toNat_natCast r
    rw [ht]
    have := @fetchFrom_all_fail P Q cfg beh 0 r
      (fun i h1 h2 => hfail i (by omega))
    simpa using this
  · intro sym info now beh e h
    unfold Economic.settleIndicator
    rw [h]
  · intro sym info now beh q h
    unfold Economic.settleIndicator
    rw [h]
  · intro ticker info now beh e h
    unfold Stocks.settleStock
    rw [h]
  · intro ticker info now beh q h
    unfold Stocks.settleStock
    rw [h]

/-- Witness for C7 at a concrete all-fail behaviour: with every attempt
rejecting, `fetchIndicator` throws the message of attempt 2 (the last),
and the aggregator turns it into the Failure-variant entry. -/
theorem claim_C7_witness :
    (∀ i, i ≤ 2 →
      stepOk (Economic.indicatorCfg "^GSPC" ⟨"S&P 500", "Index", "US Large Cap Index"⟩ "t0")
        (fun j => Outcome.fetchError ("boom" ++ toString j)) i = false) ∧
    (fetchWithRetry
      (Economic.indicatorCfg "^GSPC" ⟨"S&P 500", "Index", "US Large Cap Index"⟩ "t0")
      (fun j => Outcome.fetchError ("boom" ++ toString j)) ((2 : ℕ) : ℤ)).1 =
      .failure (stepErrOf
        (Economic.indicatorCfg "^GSPC" ⟨"S&P 500", "Index", "US Large Cap Index"⟩ "t0")
        (fun j => Outcome.fetchError ("boom" ++ toString j)) 2) := by
  constructor
  · decide
  · exact claim_C7_last_error_and_aggregator_mapping.1
      (Economic.indicatorCfg "^GSPC" ⟨"S&P 500", "Index", "US Large Cap Index"⟩ "t0")
      (fun j => Outcome.fetchError ("boom" ++ toString j)) 2 (by decide)

/-- C8: a GET request with the credential missing from the process
configuration short-circuits in every pipeline: status 500 with the
configuration-error body, and an empty outbound trace — no Quote
Fetcher call is issued, whatever the upstream behaviours would do. -/
theorem claim_C8_missing_credential_short_circuits (nodeEnv now : String)
    (behs behsS : String → ℕ → Outcome Payload)
    (behsN : String → Outcome StocksJs.NinjaPayload) (fault : Option String) :
    Economic.handler "GET" none nodeEnv now behs fault =
      ({ headers := corsHeaders, status := 500,
         body := .configError "Configuration error"
           "API key not configured. Please set API_KEY environment variable." }, []) ∧
    Stocks.handler "GET" none nodeEnv now behsS fault =
      ({ headers := corsHeaders, status := 500,
         body := .configError "Configuration error"
           "API key not configured. Please set API_KEY environment variable." }, []) ∧
    StocksJs.handler "GET" none nodeEnv now behsN fault =
      ({ headers := corsHeaders, status := 500,
         body := .configError "Configuration error"
           "API key not configured. Please set API_KEY environment variable." }, []) :=
  ⟨rfl, rfl, rfl⟩

/-- C9: the retry loop is total only for `retries >= 0`: it then runs
at most `retries + 1` iterations (one outbound request per iteration)
and resolves with a quote or throws; with `retries < 0` the loop body
never runs and the call resolves with JavaScript `undefined` — neither
a quote nor an error — after zero outbound requests. -/
theorem claim_C9_totality_needs_nonneg_retries {P Q : Type} (cfg : FetchConfig P Q)
    (beh : ℕ → Outcome P) (retries : ℤ) :
    (retries < 0 → fetchWithRetry cfg beh retries = (.jsUndefined, [])) ∧
    (0 ≤ retries →
      ((∃ q, (fetchWithRetry cfg beh retries).1 = .success q) ∨
       (∃ m, (fetchWithRetry cfg beh retries).1 = .failure m)) ∧
      (requestAttempts (fetchWithRetry cfg beh retries).2).length ≤ retries.toNat + 1) := by
  constructor
  · intro hneg
    unfold fetchWithRetry
    rw [if_neg (by omega)]
  · intro hpos
    have hw : fetchWithRetry cfg beh retries = fetchFrom cfg beh 0 retries.toNat := by
      unfold fetchWithRetry
      rw [if_pos hpos]
    rw [hw]
    refine ⟨fetchFrom_result 0 retries.toNat, ?_⟩
    obtain ⟨k, hk, hreq, -⟩ := @requestAttempts_fetchFrom P Q cfg beh 0 retries.toNat
    rw [hreq]
    simp
    omega

/-- Witness for C9 at concrete retry counts: `retries = -1` yields
`undefined` with no requests; the default `retries = 2` yields a
result with at most three requests. -/
theorem claim_C9_witness :
    ((-1 : ℤ) < 0 ∧
      fetchWithRetry
        (Economic.indicatorCfg "^GSPC" ⟨"S&P 500", "Index", "US Large Cap Index"⟩ "t0")
        (fun _ => Outcome.fetchError "boom") (-1) = (.jsUndefined, [])) ∧
    ((0 : ℤ) ≤ 2 ∧
      (requestAttempts (fetchWithRetry
        (Economic.indicatorCfg "^GSPC" ⟨"S&P 500", "Index", "US Large Cap Index"⟩ "t0")
        (fun _ => Outcome.fetchError "boom") 2).2).length ≤ (2 : ℤ).toNat + 1) :=
  ⟨⟨by decide,
    (claim_C9_totality_needs_nonneg_retries
      (Economic.indicatorCfg "^GSPC" ⟨"S&P 500", "Index", "US Large Cap Index"⟩ "t0")
      (fun _ => Outcome.fetchError "boom") (-1)).1 (by decide)⟩,
   ⟨by decide,
    ((claim_C9_totality_needs_nonneg_retries
      (Economic.indicatorCfg "^GSPC" ⟨"S&P 500", "Index", "US Large Cap Index"⟩ "t0")
      (fun _ => Outcome.fetchError "boom") 2).2 (by decide)).2⟩⟩

/-- C10: every response any of the three handlers produces — OPTIONS
200, method-not-allowed 405, configuration-error 500, generic-error
500, all-failed 503 and success 200 alike — carries the three CORS
headers, because each handler sets them unconditionally before any
branch on method or outcome. -/
theorem claim_C10_cors_on_every_response (method : String) (apiKey : Option String)
    (nodeEnv now : String) (behs behsS : String → ℕ → Outcome Payload)
    (behsN : String → Outcome StocksJs.NinjaPayload) (fault : Option String) :
    (Economic.handler method apiKey nodeEnv now behs fault).1.headers = corsHeaders ∧
    (Stocks.handler method apiKey nodeEnv now behsS fault).1.headers = corsHeaders ∧
    (StocksJs.handler method apiKey nodeEnv now behsN fault).1.headers = corsHeaders :=
  ⟨rfl, rfl, rfl⟩

/-- C3: for every upstream behaviour (any symbol and credential), a
retrying fetcher call with `retries >= 0` makes attempts numbered
consecutively `0..k` for some `k <= retries` (stopping early only on a
successful attempt, so failures run through attempt `retries`; the
default 2 gives up to 3 attempts), and after any failed attempt that
is not the last one the trace shows the `500 * 2 ^ attempt` ms
exponential-backoff delay immediately after that attempt's request. -/
theorem claim_C3_attempts_and_exponential_backoff {P Q : Type} (cfg : FetchConfig P Q)
    (beh : ℕ → Outcome P) (retries : ℤ) (hr : 0 ≤ retries) :
    (∃ k, k ≤ retries.toNat ∧
      requestAttempts (fetchWithRetry cfg beh retries).2 = List.range (k + 1) ∧
      (k < retries.toNat → stepOk cfg beh k = true)) ∧
    (∀ i, i < retries.toNat → stepFails cfg beh i = true →
      FetchEvent.request i cfg.timeoutMs ∈ (fetchWithRetry cfg beh retries).2 →
      Adjacent (.request i cfg.timeoutMs) (.backoffDelay (500 * 2 ^ i))
        (fetchWithRetry cfg beh retries).2) := by
  have hw : fetchWithRetry cfg beh retries = fetchFrom cfg beh 0 retries.toNat := by
    unfold fetchWithRetry
    rw [if_pos hr]
  rw [hw]
  constructor
  · obtain ⟨k, hk, hreq, hlast⟩ := @requestAttempts_fetchFrom P Q cfg beh 0 retries.toNat
    refine ⟨k, hk, ?_, by simpa using hlast⟩
    rw [hreq]
    simp
  · intro i hi hfail hmem
    exact backoff_follows_failed_attempt 0 retries.toNat i hmem (by omega) hfail

/-- Witness for C3: the all-fail behaviour at the default retry count
2 runs attempts 0, 1, 2 and backs off 500 ms after attempt 0. -/
theorem claim_C3_witness :
    ((0 : ℤ) ≤ 2 ∧
      ∃ k, k ≤ (2 : ℤ).toNat ∧
        requestAttempts (fetchWithRetry
          (Economic.indicatorCfg "^GSPC" ⟨"S&P 500", "Index", "US Large Cap Index"⟩ "t0")
          (fun _ => Outcome.fetchError "boom") 2).2 = List.range (k + 1) ∧
        (k < (2 : ℤ).toNat →
          stepOk (Economic.indicatorCfg "^GSPC" ⟨"S&P 500", "Index", "US Large Cap Index"⟩ "t0")
            (fun _ => Outcome.fetchError "boom") k = true)) ∧
    Adjacent (.request 0 (some 5000)) (.backoffDelay 500)
      (fetchWithRetry
        (Economic.indicatorCfg "^GSPC" ⟨"S&P 500", "Index", "US Large Cap Index"⟩ "t0")
        (fun _ => Outcome.fetchError "boom") 2).2 := by
  constructor
  · exact ⟨by decide,
      (claim_C3_attempts_and_exponential_backoff
        (Economic.indicatorCfg "^GSPC" ⟨"S&P 500", "Index", "US Large Cap Index"⟩ "t0")
        (fun _ => Outcome.fetchError "boom") 2 (by decide)).1⟩
  · have h := (claim_C3_attempts_and_exponential_backoff
      (Economic.indicatorCfg "^GSPC" ⟨"S&P 500", "Index", "US Large Cap Index"⟩ "t0")
      (fun _ => Outcome.fetchError "boom") 2 (by decide)).2 0 (by decide) (by decide)
      (by decide)
    simpa using h

/-- C4 counterexample: the claim says every outbound request of the
Quote Fetcher carries the fixed 5-second bound, but the fetcher of
src/api/stocks.js (cited by the claim) issues its request with no wait
bound at all: its trace contains a request whose timeout is `none`,
falsifying "every request carries the 5-second bound". -/
theorem claim_C4_counterexample :
    ¬ ((StocksJs.fetchStockPrice "AAPL" "Apple Inc." "t0"
        (Outcome.response 200 "" (Except.ok ⟨JSNum.fin 1⟩))).2.all
      (fun ev =>
        match ev with
        | .request _ t => t == some 5000
        | _ => true) = true) := by
  decide

/-- C4 (amended): every outbound request issued by the two retrying
Quote Fetchers (part_000 `fetchIndicator`, part_001 `fetchStockPrice`)
carries the fixed 5000 ms bound, and a rejected request (the timeout
abort included) counts as a failed attempt entering the same
retry/backoff path as other failures; the src/api/stocks.js fetcher
issues its single request with no wait bound. -/
theorem claim_C4_timeout_bound_on_retrying_fetchers :
    (∀ (sym : String) (info : Economic.IndicatorInfo) (now : String)
       (beh : ℕ → Outcome Payload) (retries : ℤ) (i : ℕ) (t : Option ℕ),
      FetchEvent.request i t ∈ (Economic.fetchIndicator sym info now beh retries).2 →
      t = some 5000) ∧
    (∀ (ticker : String) (info : Stocks.CompanyInfo) (now : String)
       (beh : ℕ → Outcome Payload) (retries : ℤ) (i : ℕ) (t : Option ℕ),
      FetchEvent.request i t ∈ (Stocks.fetchStockPrice ticker info now beh retries).2 →
      t = some 5000) ∧
    (∀ {P Q : Type} (cfg : FetchConfig P Q) (beh : ℕ → Outcome P) (i : ℕ) (m : String),
      beh i = .fetchError m → stepFails cfg beh i = true) ∧
    (∀ {P Q : Type} (cfg : FetchConfig P Q) (beh : ℕ → Outcome P) (retries : ℤ)
       (i : ℕ) (m : String),
      beh i = .fetchError m → i < retries.toNat →
      FetchEvent.request i cfg.timeoutMs ∈ (fetchWithRetry cfg beh retries).2 →
      Adjacent (.request i cfg.timeoutMs) (.backoffDelay (500 * 2 ^ i))
        (fetchWithRetry cfg beh retries).2) ∧
    (∀ (ticker name now : String) (o : Outcome StocksJs.NinjaPayload),
      (StocksJs.fetchStockPrice ticker name now o).2 = [.request 0 none]) := by
  refine ⟨?_, ?_, ?_, ?_, ?_⟩
  · intro sym info now beh retries i t hmem
    unfold Economic.fetchIndicator fetchWithRetry at hmem
    by_cases hr : 0 ≤ retries
    · rw [if_pos hr] at hmem
      exact (request_mem_fetchFrom 0 retries.toNat i t hmem).1
    · rw [if_neg hr] at hmem
      exact absurd hmem (by simp)
  · intro ticker info now beh retries i t hmem
    unfold Stocks.fetchStockPrice fetchWithRetry at hmem
    by_cases hr : 0 ≤ retries
    · rw [if_pos hr] at hmem
      exact (request_mem_fetchFrom 0 retries.toNat i t hmem).1
    · rw [if_neg hr] at hmem
      exact absurd hmem (by simp)
  · intro P Q cfg beh i m hb
    simp [stepFails, stepOf, hb]
  · intro P Q cfg beh retries i m hb hi hmem
    have hw : fetchWithRetry cfg beh retries = fetchFrom cfg beh 0 retries.toNat := by
      unfold fetchWithRetry
      rw [if_pos (by omega)]
    rw [hw] at hmem ⊢
    exact backoff_follows_failed_attempt 0 retries.toNat i hmem (by omega)
      (by simp [stepFails, stepOf, hb])
  · intro ticker name now o
    cases o with
    | fetchError msg => rw [StocksJs.fetchStockPrice_fetchError]
    | response status body json =>
      by_cases hok : 200 ≤ status ∧ status ≤ 299
      · cases json with
        | error jmsg => rw [StocksJs.fetchStockPrice_jsonErr ticker name now body jmsg hok]
        | ok p => rw [StocksJs.fetchStockPrice_ok ticker name now body p hok]
      · rw [StocksJs.fetchStockPrice_badStatus ticker name now body json hok]

/-- Witness for the amended C4 at a concrete run: the timeout-rejected
attempt 0 of `fetchIndicator` is followed by the 500 ms backoff, and
every request in the trace carries the 5000 ms bound. -/
theorem claim_C4_witness :
    FetchEvent.request 0 (some 5000) ∈
      (Economic.fetchIndicator "^GSPC" ⟨"S&P 500", "Index", "US Large Cap Index"⟩ "t0"
        (fun _ => Outcome.fetchError "timeout") 2).2 ∧
    ((some 5000 : Option ℕ) = some 5000) ∧
    Adjacent (.request 0 (some 5000)) (.backoffDelay 500)
      (fetchWithRetry
        (Economic.indicatorCfg "^GSPC" ⟨"S&P 500", "Index", "US Large Cap Index"⟩ "t0")
        (fun _ => Outcome.fetchError "timeout") 2).2 := by
  refine ⟨by decide, ?_, ?_⟩
  · exact claim_C4_timeout_bound_on_retrying_fetchers.1 "^GSPC"
      ⟨"S&P 500", "Index", "US Large Cap Index"⟩ "t0"
      (fun _ => Outcome.fetchError "timeout") 2 0 (some 5000) (by decide)
  · have h := claim_C4_timeout_bound_on_retrying_fetchers.2.2.2.1
      (Economic.indicatorCfg "^GSPC" ⟨"S&P 500", "Index", "US Large Cap Index"⟩ "t0")
      (fun _ => Outcome.fetchError "timeout") 2 0 "timeout" rfl (by decide) (by decide)
    simpa using h

/-- Unguarded JavaScript `((c - pc) / pc) * 100` with `pc = 0` is never
a finite number: `NaN` when `c = 0`, an infinity otherwise — an
"undefined" numeric result, not a thrown error. -/
theorem changePercent_pc_zero (c : JSNum) :
    (((c.sub (.fin 0)).div (.fin 0)).mul (.fin 100)).isFinite = false := by
  cases c with
  | fin q =>
    by_cases hq : q = 0
    · subst hq
      norm_num [JSNum.sub, JSNum.div, JSNum.mul, JSNum.isFinite]
    · by_cases hq2 : 0 < q
      · norm_num [JSNum.sub, JSNum.div, JSNum.mul, JSNum.isFinite, hq, hq2]
      · norm_num [JSNum.sub, JSNum.div, JSNum.mul, JSNum.isFinite, hq, hq2]
  | posInf => norm_num [JSNum.sub, JSNum.div, JSNum.mul, JSNum.isFinite]
  | negInf => norm_num [JSNum.sub, JSNum.div, JSNum.mul, JSNum.isFinite]
  | nan => norm_num [JSNum.sub, JSNum.div, JSNum.mul, JSNum.isFinite]

/-- C5: on a successful attempt both retrying fetchers compute
`change = c - pc` and `changePercent = ((c - pc) / pc) * 100` with no
zero-guard; with `previousClose = 0` the `changePercent` is a
non-finite (NaN/undefined) number — `NaN` itself when additionally
`c = 0` — not a thrown error, and the entry still lands in the
envelope as a Success variant. -/
theorem claim_C5_changePercent_unguarded_division :
    (∀ (sym : String) (info : Economic.IndicatorInfo) (now : String) (p : Payload)
       (beh : ℕ → Outcome Payload) (status : ℕ) (body : String),
      beh 0 = .response status body (.ok p) → 200 ≤ status ∧ status ≤ 299 →
      ¬(p.c = .fin 0 ∧ p.t = .fin 0) →
      Economic.settleIndicator sym info now beh =
        .ok (Economic.mkIndicatorQuote sym info now p) ∧
      (Economic.mkIndicatorQuote sym info now p).change = p.c.sub p.pc ∧
      (Economic.mkIndicatorQuote sym info now p).changePercent =
        ((p.c.sub p.pc).div p.pc).mul (.fin 100) ∧
      (p.pc = .fin 0 →
        (Economic.mkIndicatorQuote sym info now p).changePercent.isFinite = false) ∧
      (p.pc = .fin 0 → p.c = .fin 0 →
        (Economic.mkIndicatorQuote sym info now p).changePercent = .nan)) ∧
    (∀ (ticker : String) (info : Stocks.CompanyInfo) (now : String) (p : Payload)
       (beh : ℕ → Outcome Payload) (status : ℕ) (body : String),
      beh 0 = .response status body (.ok p) → 200 ≤ status ∧ status ≤ 299 →
      ¬(p.c = .fin 0 ∧ p.t = .fin 0) →
      Stocks.settleStock ticker info now beh = .ok (Stocks.mkStockQuote ticker info now p) ∧
      (Stocks.mkStockQuote ticker info now p).change = p.c.sub p.pc ∧
      (Stocks.mkStockQuote ticker info now p).changePercent =
        ((p.c.sub p.pc).div p.pc).mul (.fin 100) ∧
      (p.pc = .fin 0 →
        (Stocks.mkStockQuote ticker info now p).changePercent.isFinite = false) ∧
      (p.pc = .fin 0 → p.c = .fin 0 →
        (Stocks.mkStockQuote ticker info now p).changePercent = .nan)) := by
  constructor
  · intro sym info now p beh status body hbeh0 hok hcz
    have hnd : (Economic.indicatorCfg sym info now).isNoData p = false := by
      show (p.c == JSNum.fin 0 && p.t == JSNum.fin 0) = false
      by_cases hc : p.c = JSNum.fin 0
      · by_cases ht : p.t = JSNum.fin 0
        · exact absurd ⟨hc, ht⟩ hcz
        · simp [ht]
      · simp [hc]
    have hstep : stepOf (Economic.indicatorCfg sym info now) beh 0 =
        .ok ((Economic.indicatorCfg sym info now).mkQuote p) := by
      simp only [stepOf, hbeh0]
      rw [if_pos hok, hnd]
      simp
    have hfe : fetchFrom (Economic.indicatorCfg sym info now) beh 0 2 =
        (.success ((Economic.indicatorCfg sym info now).mkQuote p),
         [.request 0 (Economic.indicatorCfg sym info now).timeoutMs]) :=
      @fetchFrom_succ_ok Payload Economic.IndicatorQuote
        (Economic.indicatorCfg sym info now) beh 0 1 _ hstep
    refine ⟨?_, rfl, rfl, ?_, ?_⟩
    · unfold Economic.settleIndicator Economic.fetchIndicator
      rw [fetchWithRetry_two, hfe]
      rfl
    · intro hpc
      have hcp : (Economic.mkIndicatorQuote sym info now p).changePercent =
          ((p.c.sub p.pc).div p.pc).mul (.fin 100) := rfl
      rw [hcp, hpc]
      exact changePercent_pc_zero p.c
    · intro hpc hc
      have hcp : (Economic.mkIndicatorQuote sym info now p).changePercent =
          ((p.c.sub p.pc).div p.pc).mul (.fin 100) := rfl
      rw [hcp, hpc, hc]
      norm_num [JSNum.sub, JSNum.div, JSNum.mul]
  · intro ticker info now p beh status body hbeh0 hok hcz
    have hnd : (Stocks.stockCfg ticker info now).isNoData p = false := by
      show (p.c == JSNum.fin 0 && p.t == JSNum.fin 0) = false
      by_cases hc : p.c = JSNum.fin 0
      · by_cases ht : p.t = JSNum.fin 0
        · exact absurd ⟨hc, ht⟩ hcz
        · simp [ht]
      · simp [hc]
    have hstep : stepOf (Stocks.stockCfg ticker info now) beh 0 =
        .ok ((Stocks.stockCfg ticker info now).mkQuote p) := by
      simp only [stepOf, hbeh0]
      rw [if_pos hok, hnd]
      simp
    have hfe : fetchFrom (Stocks.stockCfg ticker info now) beh 0 2 =
        (.success ((Stocks.stockCfg ticker info now).mkQuote p),
         [.request 0 (Stocks.stockCfg ticker info now).timeoutMs]) :=
      @fetchFrom_succ_ok Payload Stocks.StockQuote
        (Stocks.stockCfg ticker info now) beh 0 1 _ hstep
    refine ⟨?_, rfl, rfl, ?_, ?_⟩
    · unfold Stocks.settleStock Stocks.fetchStockPrice
      rw [fetchWithRetry_two, hfe]
      rfl
    · intro hpc
      have hcp : (Stocks.mkStockQuote ticker info now p).changePercent =
          ((p.c.sub p.pc).div p.pc).mul (.fin 100) := rfl
      rw [hcp, hpc]
      exact changePercent_pc_zero p.c
    · intro hpc hc
      have hcp : (Stocks.mkStockQuote ticker info now p).changePercent =
          ((p.c.sub p.pc).div p.pc).mul (.fin 100) := rfl
      rw [hcp, hpc, hc]
      norm_num [JSNum.sub, JSNum.div, JSNum.mul]

/-- Witness for C5 at a concrete quote with `previousClose = 0` and a
current value of 5: the entry is a Success and its changePercent is
non-finite. -/
theorem claim_C5_witness :
    Economic.settleIndicator "^GSPC" ⟨"S&P 500", "Index", "US Large Cap Index"⟩ "t0"
      (fun _ => Outcome.response 200 ""
        (Except.ok ⟨JSNum.fin 5, JSNum.fin 0, JSNum.fin 6, JSNum.fin 4, JSNum.fin 99⟩)) =
      .ok (Economic.mkIndicatorQuote "^GSPC" ⟨"S&P 500", "Index", "US Large Cap Index"⟩ "t0"
        ⟨JSNum.fin 5, JSNum.fin 0, JSNum.fin 6, JSNum.fin 4, JSNum.fin 99⟩) ∧
    (Economic.mkIndicatorQuote "^GSPC" ⟨"S&P 500", "Index", "US Large Cap Index"⟩ "t0"
      ⟨JSNum.fin 5, JSNum.fin 0, JSNum.fin 6, JSNum.fin 4, JSNum.fin 99⟩).changePercent.isFinite
      = false := by
  have h := claim_C5_changePercent_unguarded_division.1 "^GSPC"
    ⟨"S&P 500", "Index", "US Large Cap Index"⟩ "t0"
    ⟨JSNum.fin 5, JSNum.fin 0, JSNum.fin 6, JSNum.fin 4, JSNum.fin 99⟩
    (fun _ => Outcome.response 200 ""
      (Except.ok ⟨JSNum.fin 5, JSNum.fin 0, JSNum.fin 6, JSNum.fin 4, JSNum.fin 99⟩))
    200 "" rfl (by decide) (by decide)
  exact ⟨h.1, h.2.2.2.1 rfl⟩

/-- C6: whenever an attempt hits the 429 rate-limit status while
attempts remain, the trace shows the `1000 * (attempt + 1)` ms delay
immediately after that attempt's request, immediately followed by the
next attempt's request — the 429 is not the final failure; in
particular the behaviour "429 on attempts 0 and 1, success on attempt
2" at the default retry count yields the Success with exactly the two
rate-limit delays 1000 ms and 2000 ms. -/
theorem claim_C6_rate_limit_backoff {P Q : Type} (cfg : FetchConfig P Q)
    (beh : ℕ → Outcome P) :
    (∀ (retries : ℤ), 0 ≤ retries → ∀ i, i < retries.toNat → stepRate cfg beh i = true →
      FetchEvent.request i cfg.timeoutMs ∈ (fetchWithRetry cfg beh retries).2 →
      Adjacent3 (.request i cfg.timeoutMs) (.rateLimitDelay (1000 * (i + 1)))
        (.request (i + 1) cfg.timeoutMs) (fetchWithRetry cfg beh retries).2) ∧
    (∀ (q : Q) (b0 b1 : String),
      stepOf cfg beh 0 = .rateLimited b0 → stepOf cfg beh 1 = .rateLimited b1 →
      stepOf cfg beh 2 = .ok q →
      fetchWithRetry cfg beh 2 =
        (.success q,
         [.request 0 cfg.timeoutMs, .rateLimitDelay 1000, .request 1 cfg.timeoutMs,
          .rateLimitDelay 2000, .request 2 cfg.timeoutMs])) := by
  constructor
  · intro retries hr i hi hrate hmem
    have hw : fetchWithRetry cfg beh retries = fetchFrom cfg beh 0 retries.toNat := by
      unfold fetchWithRetry
      rw [if_pos hr]
    rw [hw] at hmem ⊢
    exact rate_limit_follows_429 0 retries.toNat i hmem (by omega) hrate
  · intro q b0 b1 h0 h1 h2
    rw [fetchWithRetry_two]
    have hres : (fetchFrom cfg beh 0 2).1 = FetchResult.success q :=
      (@fetchFrom_res_rate P Q cfg beh 0 1 b0 h0).trans
        ((@fetchFrom_res_rate P Q cfg beh 1 0 b1 h1).trans
          (congrArg Prod.fst (fetchFrom_last_ok h2)))
    have htr : (fetchFrom cfg beh 0 2).2 =
        [FetchEvent.request 0 cfg.timeoutMs, FetchEvent.rateLimitDelay 1000,
         FetchEvent.request 1 cfg.timeoutMs, FetchEvent.rateLimitDelay 2000,
         FetchEvent.request 2 cfg.timeoutMs] :=
      (@fetchFrom_trace_rate P Q cfg beh 0 1 b0 h0).trans
        (congrArg
          (fun l => FetchEvent.request 0 cfg.timeoutMs ::
            FetchEvent.rateLimitDelay (1000 * (0 + 1)) :: l)
          ((@fetchFrom_trace_rate P Q cfg beh 1 0 b1 h1).trans
            (congrArg
              (fun l => FetchEvent.request 1 cfg.timeoutMs ::
                FetchEvent.rateLimitDelay (1000 * (1 + 1)) :: l)
              (fetchFrom_trace_last 2))))
    calc fetchFrom cfg beh 0 2 = ((fetchFrom cfg beh 0 2).1, (fetchFrom cfg beh 0 2).2) := rfl
      _ = _ := by rw [hres, htr]

/-- Witness for C6: 429 on attempts 0 and 1 and a clean quote on
attempt 2 resolve with the Success and exactly the delays 1000 ms and
2000 ms between the three requests. -/
theorem claim_C6_witness :
    fetchWithRetry
      (Economic.indicatorCfg "^GSPC" ⟨"S&P 500", "Index", "US Large Cap Index"⟩ "t0")
      (fun i =>
        match i with
        | 0 => Outcome.response 429 "limit" (Except.error "x")
        | 1 => Outcome.response 429 "limit" (Except.error "x")
        | _ => Outcome.response 200 ""
            (Except.ok ⟨JSNum.fin 5, JSNum.fin 4, JSNum.fin 6, JSNum.fin 3, JSNum.fin 99⟩)) 2 =
      (.success ((Economic.indicatorCfg "^GSPC"
          ⟨"S&P 500", "Index", "US Large Cap Index"⟩ "t0").mkQuote
        ⟨JSNum.fin 5, JSNum.fin 4, JSNum.fin 6, JSNum.fin 3, JSNum.fin 99⟩),
       [.request 0 (some 5000), .rateLimitDelay 1000, .request 1 (some 5000),
        .rateLimitDelay 2000, .request 2 (some 5000)]) :=
  (claim_C6_rate_limit_backoff
    (Economic.indicatorCfg "^GSPC" ⟨"S&P 500", "Index", "US Large Cap Index"⟩ "t0")
    (fun i =>
      match i with
      | 0 => Outcome.response 429 "limit" (Except.error "x")
      | 1 => Outcome.response 429 "limit" (Except.error "x")
      | _ => Outcome.response 200 ""
          (Except.ok ⟨JSNum.fin 5, JSNum.fin 4, JSNum.fin 6, JSNum.fin 3, JSNum.fin 99⟩))).2
    _ "limit" "limit" rfl rfl rfl

/-- C1: for every registry and every pattern of per-symbol outcomes,
the aggregated data sequence of both retrying pipelines has exactly
one entry per registry descriptor, at the descriptor's own position
(registry declaration order) and keyed by its symbol; a failed fetch
is substituted by the Failure variant still carrying the descriptor
metadata, never dropped (the `undefined` slot is impossible). The
completion order cannot influence this: in the `Promise.all` model,
any completion order that is a permutation of the indices resolves
with the index-aligned list itself. -/
theorem claim_C1_one_entry_per_symbol_in_order :
    (∀ (registry : List (String × Economic.IndicatorInfo)) (now : String)
       (behs : String → ℕ → Outcome Payload),
      (Economic.indicatorEntries registry now behs).length = registry.length ∧
      ∀ i (hi : i < registry.length)
        (hi2 : i < (Economic.indicatorEntries registry now behs).length),
        Economic.matchesDescriptorE (registry[i].1) (registry[i].2)
          ((Economic.indicatorEntries registry now behs)[i])) ∧
    (∀ (registry : List (String × Stocks.CompanyInfo)) (now : String)
       (behs : String → ℕ → Outcome Payload),
      (Stocks.stockEntries registry now behs).length = registry.length ∧
      ∀ i (hi : i < registry.length)
        (hi2 : i < (Stocks.stockEntries registry now behs).length),
        Stocks.matchesDescriptorS (registry[i].1) (registry[i].2)
          ((Stocks.stockEntries registry now behs)[i])) ∧
    (∀ (α : Type) (results : List α) (order : List ℕ),
      order.Perm (List.range results.length) → promiseAll results order = results.map some) := by
  refine ⟨?_, ?_, ?_⟩
  · intro registry now behs
    refine ⟨Economic.indicatorEntries_length registry now behs, ?_⟩
    intro i hi hi2
    have hget : (Economic.indicatorEntries registry now behs)[i] =
        Economic.settleIndicator (registry[i].1) (registry[i].2) now (behs (registry[i].1)) := by
      simp [Economic.indicatorEntries]
    rw [hget]
    exact Economic.settleIndicator_matches _ _ _ _
  · intro registry now behs
    refine ⟨Stocks.stockEntries_length registry now behs, ?_⟩
    intro i hi hi2
    have hget : (Stocks.stockEntries registry now behs)[i] =
        Stocks.settleStock (registry[i].1) (registry[i].2) now (behs (registry[i].1)) := by
      simp [Stocks.stockEntries]
    rw [hget]
    exact Stocks.settleStock_matches _ _ _ _
  · intro α results order hp
    exact promiseAll_perm results order hp

/-- Witness for C1 at the real registry with an all-fail behaviour:
eight entries for eight descriptors, the first one keyed `^GSPC` with
its metadata, and a two-element `Promise.all` completing in reversed
order still resolving index-aligned. -/
theorem claim_C1_witness :
    (Economic.indicatorEntries Economic.INDICATORS "t0"
      (fun _ _ => Outcome.fetchError "boom")).length = Economic.INDICATORS.length ∧
    Economic.matchesDescriptorE "^GSPC" ⟨"S&P 500", "Index", "US Large Cap Index"⟩
      ((Economic.indicatorEntries Economic.INDICATORS "t0"
        (fun _ _ => Outcome.fetchError "boom")).headD .undefinedSlot) ∧
    promiseAll ["a", "b"] [1, 0] = ["a", "b"].map some := by
  refine ⟨(claim_C1_one_entry_per_symbol_in_order.1 Economic.INDICATORS "t0"
    (fun _ _ => Outcome.fetchError "boom")).1, ?_,
    claim_C1_one_entry_per_symbol_in_order.2.2 String ["a", "b"] [1, 0] (by decide)⟩
  have h := (claim_C1_one_entry_per_symbol_in_order.1 Economic.INDICATORS "t0"
    (fun _ _ => Outcome.fetchError "boom")).2 0 (by decide) (by decide)
  exact h

/-- C2: the response policy of the economic handler and the stocks.js
handler on a GET with a valid credential and no unexpected fault
(behaviours injecting only non-empty error strings, as real runtime
errors do): if every entry is a Failure, status 503 with the service
unavailable body still carrying the full per-item data; if at least
one entry is a Success, status 200 with the full ordered unfiltered
sequence, and for the indicator pipeline additionally the grouped
view, which maps each category to exactly the successful entries of
that category (failures omitted from the grouping only). -/
theorem claim_C2_response_policy (apiKey : Option String) (nodeEnv now : String)
    (behs : String → ℕ → Outcome Payload) (behsN : String → Outcome StocksJs.NinjaPayload)
    (hkey : jsTruthy apiKey = true)
    (hbehs : ∀ sym i, outcomeMsgNonempty (behs sym i) = true)
    (hbehsN : ∀ sym, outcomeMsgNonempty (behsN sym) = true) :
    ((∀ e ∈ Economic.indicatorEntries Economic.INDICATORS now behs, e.isOk = false) →
      (Economic.handler "GET" apiKey nodeEnv now behs none).1 =
        ⟨corsHeaders, 503,
          .serviceUnavailable "Service unavailable"
            "Unable to fetch economic indicator data from API"
            (Economic.indicatorEntries Economic.INDICATORS now behs)⟩) ∧
    ((∃ e ∈ Economic.indicatorEntries Economic.INDICATORS now behs, e.isOk = true) →
      (Economic.handler "GET" apiKey nodeEnv now behs none).1 =
        ⟨corsHeaders, 200,
          .success now (Economic.indicatorEntries Economic.INDICATORS now behs)
            (Economic.groupedOf (Economic.indicatorEntries Economic.INDICATORS now behs))⟩ ∧
      ∀ c, Economic.groupLookup
          (Economic.groupedOf (Economic.indicatorEntries Economic.INDICATORS now behs)) c =
        (Economic.indicatorEntries Economic.INDICATORS now behs).filter
          (fun e => e.isOk && e.typeOf == c)) ∧
    ((∀ e ∈ StocksJs.jsEntries StocksJs.COMPANIES now behsN, e.isOk = false) →
      (StocksJs.handler "GET" apiKey nodeEnv now behsN none).1 =
        ⟨corsHeaders, 503,
          .serviceUnavailable "Service unavailable" "Unable to fetch stock data from API"
            (StocksJs.jsEntries StocksJs.COMPANIES now behsN)⟩) ∧
    ((∃ e ∈ StocksJs.jsEntries StocksJs.COMPANIES now behsN, e.isOk = true) →
      (StocksJs.handler "GET" apiKey nodeEnv now behsN none).1 =
        ⟨corsHeaders, 200, .success now (StocksJs.jsEntries StocksJs.COMPANIES now behsN)⟩) := by
  refine ⟨?_, ?_, ?_, ?_⟩
  · intro hall
    have hAllb : ((Economic.indicatorEntries Economic.INDICATORS now behs).all
        (fun e => e.hasError)) = true := by
      rw [List.all_eq_true]
      intro e he
      rw [Economic.indicatorEntries_mem _ _ _ hbehs e he, hall e he]
      rfl
    unfold Economic.handler
    rw [Economic.economic_handlerCore_get apiKey nodeEnv now behs hkey, if_pos hAllb]
  · intro hsome
    have hAllb : ((Economic.indicatorEntries Economic.INDICATORS now behs).all
        (fun e => e.hasError)) = false := by
      obtain ⟨e, he, hok⟩ := hsome
      apply List.all_eq_false.mpr
      refine ⟨e, he, ?_⟩
      rw [Economic.indicatorEntries_mem _ _ _ hbehs e he, hok]
      simp
    constructor
    · unfold Economic.handler
      rw [Economic.economic_handlerCore_get apiKey nodeEnv now behs hkey, if_neg (by rw [hAllb]; simp)]
    · intro c
      rw [Economic.groupLookup_groupedOf]
      apply List.filter_congr
      intro e he
      rw [Economic.indicatorEntries_mem _ _ _ hbehs e he]
      simp
  · intro hall
    have hAllb : ((StocksJs.jsEntries StocksJs.COMPANIES now behsN).all
        (fun e => e.hasError)) = true := by
      rw [List.all_eq_true]
      intro e he
      rw [StocksJs.jsEntries_mem _ _ _ hbehsN e he, hall e he]
      rfl
    unfold StocksJs.handler
    rw [StocksJs.stocksJs_handlerCore_get apiKey nodeEnv now behsN hkey, if_pos hAllb]
  · intro hsome
    have hAllb : ((StocksJs.jsEntries StocksJs.COMPANIES now behsN).all
        (fun e => e.hasError)) = false := by
      obtain ⟨e, he, hok⟩ := hsome
      apply List.all_eq_false.mpr
      refine ⟨e, he, ?_⟩
      rw [StocksJs.jsEntries_mem _ _ _ hbehsN e he, hok]
      simp
    unfold StocksJs.handler
    rw [StocksJs.stocksJs_handlerCore_get apiKey nodeEnv now behsN hkey, if_neg (by rw [hAllb]; simp)]

/-- Witness for C2 at an all-fail behaviour: every slot is a Failure
and the economic handler answers 503 with the full data. -/
theorem claim_C2_witness :
    jsTruthy (some "k") = true ∧
    (∀ e ∈ Economic.indicatorEntries Economic.INDICATORS "t0"
      (fun _ _ => Outcome.fetchError "boom"), e.isOk = false) ∧
    (Economic.handler "GET" (some "k") "production" "t0"
      (fun _ _ => Outcome.fetchError "boom") none).1 =
      ⟨corsHeaders, 503,
        .serviceUnavailable "Service unavailable"
          "Unable to fetch economic indicator data from API"
          (Economic.indicatorEntries Economic.INDICATORS "t0"
            (fun _ _ => Outcome.fetchError "boom"))⟩ := by
  refine ⟨by decide, by decide, ?_⟩
  exact (claim_C2_response_policy (some "k") "production" "t0"
    (fun _ _ => Outcome.fetchError "boom") (fun _ => Outcome.fetchError "boom")
    (by decide) (fun _ _ => rfl) (fun _ => rfl)).1 (by decide)
